import Mathlib

/-!
Verification development for the auto-rigger module/proxy framework of the
gt-tools repository (`gt/tools/auto_rigger/rig_framework.py` and
`gt/tools/auto_rigger/rig_module_spine.py`).

The Python data model is shallowly embedded:
* Python scalar/collection values become the inductive `PyVal` (numbers are
  modelled as rationals, dictionaries as insertion-ordered association lists
  with Python's replace-in-place update semantics).
* The classes `Proxy`, `ModuleGeneric`, `RigProject`, `ModuleSpine` become
  structures, their mutating methods become functions returning the updated
  structure.
* The scene-mutating build entry points (`RigProject.build_proxy` /
  `RigProject.build_rig`) are embedded as generators of an ordered event
  trace over an abstract scene backend, with a failure oracle standing in
  for exceptions raised by backend calls.
* Helpers that live in repository files not present in this snapshot
  (`uuid_utils`, `transform_utils`, `string_utils`, `rig_modules`,
  `color_utils`, `curve_utils`, `rig_constants`) are modelled from the
  spec; each such definition carries a doc comment starting with
  `Modelled from the spec:`.
-/

namespace GtRig

/-- Python values flowing through the serialization layer: numbers
(int/float collapsed to `ℚ`), strings, booleans, lists, string-keyed
dictionaries and `None`. -/
inductive PyVal : Type where
  | num (q : ℚ)
  | str (s : String)
  | boolean (b : Bool)
  | list (l : List PyVal)
  | dict (d : List (String × PyVal))
  | pynone
deriving Repr

/-- A Python dictionary with string keys, in insertion order. -/
abbrev PyDict : Type := List (String × PyVal)

/-- Python truthiness (`bool(x)`): zero, empty and `None` are falsy. -/
def PyVal.truthy : PyVal → Bool
  | .num q => decide (q ≠ 0)
  | .str s => decide (s ≠ "")
  | .boolean b => b
  | .list l => !l.isEmpty
  | .dict d => !d.isEmpty
  | .pynone => false

/-- `isinstance(x, dict)`. -/
def PyVal.isDict : PyVal → Bool
  | .dict _ => true
  | _ => false

/-- `isinstance(x, (float, int))`; Python's `bool` is a subclass of `int`. -/
def PyVal.isFloatInt : PyVal → Bool
  | .num _ => true
  | .boolean _ => true
  | _ => false

/-- `len(x)` — defined for strings, lists and dictionaries; `none` models
the `TypeError` raised on other values. -/
def PyVal.pyLen : PyVal → Option Nat
  | .str s => some s.length
  | .list l => some l.length
  | .dict d => some d.length
  | _ => none

/-- Does the dictionary hold the key (`k in d`)? -/
def dictContains : PyDict → String → Bool
  | [], _ => false
  | kv :: tl, k => decide (kv.1 = k) || dictContains tl k

/-- `d[k] = v` with Python semantics: an existing key keeps its position
and gets the new value; a new key is appended at the end.  (Keys of a
Python dictionary are unique, so replacing the first occurrence is
replacing the key.) -/
def dictInsert : PyDict → String → PyVal → PyDict
  | [], k, v => [(k, v)]
  | kv :: tl, k, v => if kv.1 = k then (k, v) :: tl else kv :: dictInsert tl k v

/-- `d.get(k)` as an `Option` (no default). -/
def dictFind : PyDict → String → Option PyVal
  | [], _ => none
  | kv :: tl, k => if kv.1 = k then some kv.2 else dictFind tl k

/-- `d.get(k)` — Python returns `None` when the key is absent. -/
def pyGet (d : PyDict) (k : String) : PyVal :=
  (dictFind d k).getD .pynone

-- ---------------------------------------------------------------------------
-- UUID machinery (gt/utils/uuid_utils.py is not part of this snapshot)
-- ---------------------------------------------------------------------------
/-- The sixteen lowercase hexadecimal digits. -/
def hexDigitChars : List Char :=
  "0123456789abcdef".data

/-- Hexadecimal digit for `n % 16`. -/
def hexChar (n : Nat) : Char :=
  hexDigitChars.getD (n % 16) '0'

/-- Is the character a lowercase hexadecimal digit? -/
def isHexChar (c : Char) : Bool :=
  hexDigitChars.contains c

/-- Modelled from the spec: `uuid_utils.generate_uuid(remove_dashes=True)`
"produces a universally-unique, dash-free string".  The embedding draws the
value deterministically from a `Nat` seed threaded through every
construction site, producing the 32 dash-free hex characters of the seed. -/
def generate_uuid (seed : Nat) : String :=
  String.mk ((List.range 32).map (fun i => hexChar (seed / 16 ^ i % 16)))

/-- Modelled from the spec: `uuid_utils.is_uuid_valid` validates the full
dash-free UUID format (32 hexadecimal characters) "without resolving
existence". -/
def is_uuid_valid (s : String) : Bool :=
  s.length == 32 && s.data.all isHexChar

/-- Modelled from the spec: `uuid_utils.is_short_uuid_valid` validates the
short UUID form (8 hexadecimal characters). -/
def is_short_uuid_valid (s : String) : Bool :=
  s.length == 8 && s.data.all isHexChar

-- ---------------------------------------------------------------------------
-- Transform and Curve value objects
-- (gt/utils/transform_utils.py and gt/utils/curve_utils.py are not part of
-- this snapshot)
-- ---------------------------------------------------------------------------
/-- Modelled from the spec: a 3-float vector; floats are embedded as `ℚ`. -/
structure Vector3 where
  x : ℚ
  y : ℚ
  z : ℚ
deriving Repr, DecidableEq

/-- Modelled from the spec: "Transform: 3 vectors (position, rotation,
scale), each (x,y,z) floats." -/
structure Transform where
  position : Vector3
  rotation : Vector3
  scale : Vector3
deriving Repr, DecidableEq

/-- `Transform()` — "Default is T:(0,0,0) R:(0,0,0) and S:(1,1,1)"
(comment at rig_framework.py line 246). -/
def defaultTransform : Transform :=
  ⟨⟨0, 0, 0⟩, ⟨0, 0, 0⟩, ⟨1, 1, 1⟩⟩

def vector3ToPy (v : Vector3) : PyVal :=
  .list [.num v.x, .num v.y, .num v.z]

/-- Modelled from the spec: `Transform.get_transform_as_dict` — Transform
"serializes to/from a 3-item ordered structure" `[pos3, rot3, scale3]`. -/
def Transform.get_transform_as_dict (t : Transform) : PyVal :=
  .list [vector3ToPy t.position, vector3ToPy t.rotation, vector3ToPy t.scale]

def pyToVector3 : PyVal → Option Vector3
  | .list [.num a, .num b, .num c] => some ⟨a, b, c⟩
  | _ => none

/-- Modelled from the spec: `Transform.set_transform_from_dict` — the
inverse of `get_transform_as_dict`; on data that does not match the 3-item
shape the transform keeps its previous values. -/
def Transform.set_transform_from_dict (t : Transform) (transform_dict : PyVal) : Transform :=
  match transform_dict with
  | .list [p, r, s] =>
    match pyToVector3 p, pyToVector3 r, pyToVector3 s with
    | some pv, some rv, some sv => ⟨pv, rv, sv⟩
    | _, _, _ => t
  | _ => t

/-- Modelled from the spec: a Curve is "a named, shape-describing value
used to render the placeholder guide"; `curve_ok` stands for
`Curve.is_curve_valid`. -/
structure Curve where
  name : String
  shape : String
  curve_ok : Bool
deriving Repr, DecidableEq

def Curve.set_name (c : Curve) (name : String) : Curve :=
  { c with name := name }

def Curve.is_curve_valid (c : Curve) : Bool :=
  c.curve_ok

/-- Modelled from the spec: `curve_utils.get_curve` fetches a library curve
by shape name. -/
def get_curve (shape : String) : Curve :=
  { name := shape, shape := shape, curve_ok := true }

-- ---------------------------------------------------------------------------
-- RiggerConstants (rig_constants.py / rig_utils.py are not in this snapshot)
-- ---------------------------------------------------------------------------
/-- Modelled from the spec: `RiggerConstants.PROXY_META_TYPE`, the metadata
key holding the proxy's semantic role ("meta type"). -/
def PROXY_META_TYPE : String := "metaType"

/-- Modelled from the spec: `RiggerConstants.PROXY_META_PARENT`, the
metadata key holding the visualization-only parent UUID ("meta parent"). -/
def PROXY_META_PARENT : String := "metaParentUUID"

-- ---------------------------------------------------------------------------
-- Proxy (rig_framework.py lines 94-715)
-- ---------------------------------------------------------------------------
/-- The mutable state of `Proxy` (rig_framework.py lines 106-116).
`locator_scale` has type `PyVal` because `set_locator_scale` stores its
argument without an early return on the isinstance failure, so any value
can end up in the field. -/
structure Proxy where
  name : String
  transform : Option Transform
  offset_transform : Option Transform
  curve : Curve
  uuid : String
  parent_uuid : Option String
  locator_scale : PyVal
  attr_dict : PyDict
  metadata : Option PyDict
deriving Repr

/-- A dynamically-typed argument as passed to the `Proxy` setters: either a
plain data value or an instance of one of the framework classes. -/
inductive PyObj : Type where
  | val (v : PyVal)
  | transformObj (t : Transform)
  | curveObj (c : Curve)
  | proxyObj (p : Proxy)

/-- `Proxy.set_name` (lines 257-267): rejects `None` and non-strings,
otherwise renames the curve and the proxy. -/
def Proxy.set_name (p : Proxy) (name : PyVal) : Proxy :=
  match name with
  | .str s => { p with curve := p.curve.set_name s, name := s }
  | _ => p

/-- `Proxy.set_transform` (lines 269-279): rejects falsy values and
non-`Transform` instances (a `Transform` instance is always truthy). -/
def Proxy.set_transform (p : Proxy) (transform : PyObj) : Proxy :=
  match transform with
  | .transformObj t => { p with transform := some t }
  | _ => p

/-- `Proxy.set_offset_transform` (lines 340-350). -/
def Proxy.set_offset_transform (p : Proxy) (transform : PyObj) : Proxy :=
  match transform with
  | .transformObj t => { p with offset_transform := some t }
  | _ => p

/-- `Proxy.set_position` (lines 304-314) for the `xyz=Vector3` calling
convention used in this repository; `_initialize_transform` happens first
(`Transform.set_position` itself is not in the snapshot and is modelled
from the spec as replacing the position vector). -/
def Proxy.set_position_xyz (p : Proxy) (v : Vector3) : Proxy :=
  let t := p.transform.getD defaultTransform
  { p with transform := some { t with position := v } }

/-- `Proxy.set_offset_position` (lines 352-362) for the `xyz` convention. -/
def Proxy.set_offset_position_xyz (p : Proxy) (v : Vector3) : Proxy :=
  let t := p.offset_transform.getD defaultTransform
  { p with offset_transform := some { t with position := v } }

/-- `Proxy.set_initial_position` (lines 281-292): sets the position and the
offset position to the same value. -/
def Proxy.set_initial_position_xyz (p : Proxy) (v : Vector3) : Proxy :=
  (p.set_position_xyz v).set_offset_position_xyz v

/-- `Proxy.set_curve` (lines 388-406). -/
def Proxy.set_curve (p : Proxy) (curve : PyObj) (inherit_curve_name : Bool) : Proxy :=
  match curve with
  | .curveObj c =>
    if !c.is_curve_valid then p
    else if inherit_curve_name then
      let p2 := p.set_name (.str c.name)
      { p2 with curve := c }
    else
      { p with curve := c.set_name p.name }
  | _ => p

/-- `Proxy.set_locator_scale` (lines 408-411).  The source logs
"Unable to set locator scale. Invalid input." when the argument is not a
float/int, but — unlike every sibling setter — has no early return after
the log, so the assignment `self.locator_scale = scale` runs regardless. -/
def Proxy.set_locator_scale (p : Proxy) (scale : PyVal) : Proxy :=
  { p with locator_scale := scale }

/-- True exactly when `Proxy.set_locator_scale` emits its
"Unable to set locator scale. Invalid input." log (the isinstance guard
of lines 409-410). -/
def Proxy.set_locator_scale_logs_rejection (scale : PyVal) : Bool :=
  !scale.isFloatInt

/-- `Proxy.set_attr_dict` (lines 413-424). -/
def Proxy.set_attr_dict (p : Proxy) (attr_dict : PyVal) : Proxy :=
  match attr_dict with
  | .dict d => { p with attr_dict := d }
  | _ => p

/-- `Proxy.add_to_attr_dict` (lines 426-434). -/
def Proxy.add_to_attr_dict (p : Proxy) (attr : String) (value : PyVal) : Proxy :=
  { p with attr_dict := dictInsert p.attr_dict attr value }

/-- `Proxy.set_metadata_dict` (lines 436-445). -/
def Proxy.set_metadata_dict (p : Proxy) (metadata : PyVal) : Proxy :=
  match metadata with
  | .dict d => { p with metadata := some d }
  | _ => p

/-- The `if not self.metadata: self.metadata = {}` initialization shared by
`add_to_metadata` and `add_meta_parent`. -/
def Proxy.metadataOrEmpty (p : Proxy) : PyDict :=
  match p.metadata with
  | some md => if md.isEmpty then [] else md
  | none => []

/-- `Proxy.add_to_metadata` (lines 447-457). -/
def Proxy.add_to_metadata (p : Proxy) (key : String) (value : PyVal) : Proxy :=
  { p with metadata := some (dictInsert p.metadataOrEmpty key value) }

/-- `Proxy.add_meta_parent` (lines 459-471): accepts a valid full-form UUID
string or a `Proxy` instance; anything else only triggers the metadata
initialization. -/
def Proxy.add_meta_parent (p : Proxy) (line_parent : PyObj) : Proxy :=
  let m := p.metadataOrEmpty
  match line_parent with
  | .val (.str s) =>
    if is_uuid_valid s then
      { p with metadata := some (dictInsert m PROXY_META_PARENT (.str s)) }
    else
      { p with metadata := some m }
  | .proxyObj q => { p with metadata := some (dictInsert m PROXY_META_PARENT (.str q.uuid)) }
  | _ => { p with metadata := some m }

/-- `Proxy.add_color` (lines 473-487): a 3+-element numeric tuple/list
stores `autoColor = False` and `colorDefault = [r, g, b]` in `attr_dict`. -/
def Proxy.add_color (p : Proxy) (rgb_color : PyVal) : Proxy :=
  match rgb_color with
  | .list l =>
    if decide (3 ≤ l.length) && l.all PyVal.isFloatInt then
      let d1 := dictInsert p.attr_dict "autoColor" (.boolean false)
      let d2 := dictInsert d1 "colorDefault" (.list (l.take 3))
      { p with attr_dict := d2 }
    else p
  | _ => p

/-- `Proxy.set_uuid` (lines 489-504): rejects falsy/non-string values and
strings failing both UUID validators. -/
def Proxy.set_uuid (p : Proxy) (uuid : PyVal) : Proxy :=
  match uuid with
  | .str s =>
    if s = "" then p
    else if is_uuid_valid s || is_short_uuid_valid s then { p with uuid := s }
    else p
  | _ => p

/-- `Proxy.set_parent_uuid` (lines 506-520). -/
def Proxy.set_parent_uuid (p : Proxy) (uuid : PyVal) : Proxy :=
  match uuid with
  | .str s =>
    if s = "" then p
    else if is_uuid_valid s || is_short_uuid_valid s then { p with parent_uuid := some s }
    else p
  | _ => p

/-- `Proxy.set_parent_uuid_from_proxy` (lines 522-535). -/
def Proxy.set_parent_uuid_from_proxy (p : Proxy) (parent_proxy : PyObj) : Proxy :=
  match parent_proxy with
  | .proxyObj q => p.set_parent_uuid (.str q.uuid)
  | _ => p

/-- `Proxy.clear_parent_uuid` (lines 537-541). -/
def Proxy.clear_parent_uuid (p : Proxy) : Proxy :=
  { p with parent_uuid := none }

/-- `Proxy.set_meta_type` (lines 543-550). -/
def Proxy.set_meta_type (p : Proxy) (value : PyVal) : Proxy :=
  p.add_to_metadata PROXY_META_TYPE value

/-- `Proxy.get_meta_parent_uuid` (lines 634-641). -/
def Proxy.get_meta_parent_uuid (p : Proxy) : Option PyVal :=
  match p.metadata with
  | some md => if md.isEmpty then none else dictFind md PROXY_META_PARENT
  | none => none

/-- `Proxy.read_data_from_dict` (lines 552-597).  A truthy non-dict logs
and leaves the proxy unchanged (the source returns `None`); a dictionary is
merged key by key.  (A falsy non-dict such as `None` raises an
`AttributeError` at the first `.get` in the source; no call site in the
claims reaches that case.)  Note the `offsetTransform` branch: the source
(line 584) passes the value of the `transform` key to
`set_transform_from_dict`, not the `offsetTransform` value. -/
def Proxy.read_data_from_dict (p : Proxy) (proxy_dict : PyVal) : Proxy :=
  match proxy_dict with
  | .dict dd =>
    let p := if (pyGet dd "name").truthy then p.set_name (pyGet dd "name") else p
    let p := if (pyGet dd "parent").truthy then p.set_parent_uuid (pyGet dd "parent") else p
    let p := if (pyGet dd "locatorScale").truthy then p.set_locator_scale (pyGet dd "locatorScale") else p
    let tv := pyGet dd "transform"
    let p := if tv.truthy && decide (tv.pyLen = some 3) then
        { p with transform := some ((p.transform.getD defaultTransform).set_transform_from_dict tv) }
      else p
    let ov := pyGet dd "offsetTransform"
    let p := if ov.truthy && decide (ov.pyLen = some 3) then
        let newOffset := (p.offset_transform.getD defaultTransform).set_transform_from_dict tv
        { p with offset_transform := some newOffset }
      else p
    let p := if (pyGet dd "attributes").truthy then p.set_attr_dict (pyGet dd "attributes") else p
    let p := if (pyGet dd "metadata").truthy then p.set_metadata_dict (pyGet dd "metadata") else p
    let p := if (pyGet dd "uuid").truthy then p.set_uuid (pyGet dd "uuid") else p
    p
  | _ => p

def optStrToPy : Option String → PyVal
  | some s => .str s
  | none => .pynone

/-- `Proxy.get_proxy_as_dict` (lines 684-715): always emits `name`,
`parent` and `locatorScale`; conditionally emits the transform blocks,
`attributes`, `metadata` and `uuid`. -/
def Proxy.get_proxy_as_dict (p : Proxy)
    (include_uuid include_transform_data include_offset_data : Bool) : PyDict :=
  let d : PyDict :=
    [("name", .str p.name), ("parent", optStrToPy p.parent_uuid),
     ("locatorScale", p.locator_scale)]
  let d := match p.transform with
    | some t => if include_transform_data then d ++ [("transform", t.get_transform_as_dict)] else d
    | none => d
  let d := match p.offset_transform with
    | some t => if include_offset_data then d ++ [("offsetTransform", t.get_transform_as_dict)] else d
    | none => d
  let d := if p.attr_dict.isEmpty then d else d ++ [("attributes", .dict p.attr_dict)]
  let d := match p.metadata with
    | some md => if md.isEmpty then d else d ++ [("metadata", .dict md)]
    | none => d
  let d := if include_uuid && decide (p.uuid ≠ "") then d ++ [("uuid", .str p.uuid)] else d
  d

/-- `Proxy.__init__` with no arguments (default-values block, lines
106-116); the seed threads the `generate_uuid` call. -/
def mkProxyDefault (seed : Nat) : Proxy :=
  { name := "proxy"
    transform := none
    offset_transform := none
    curve := (get_curve "_proxy_joint").set_name "proxy"
    uuid := generate_uuid seed
    parent_uuid := none
    locator_scale := .num 1
    attr_dict := []
    metadata := none }

/-- `Proxy(name=...)`: the constructor runs `set_name` when the argument is
truthy (lines 118-119). -/
def mkProxyNamed (seed : Nat) (name : String) : Proxy :=
  if name = "" then mkProxyDefault seed else (mkProxyDefault seed).set_name (.str name)

/-- A concrete proxy whose main transform and offset transform differ: the
shape of input on which the serialization round trip goes wrong. -/
def c1SourceProxy : Proxy :=
  { mkProxyDefault 0 with
      name := "demo"
      transform := some ⟨⟨1, 2, 3⟩, ⟨0, 0, 0⟩, ⟨1, 1, 1⟩⟩
      offset_transform := some ⟨⟨4, 5, 6⟩, ⟨0, 0, 0⟩, ⟨1, 1, 1⟩⟩ }

/-- `get_proxy_as_dict()` on `c1SourceProxy` fed to `read_data_from_dict()`
on a fresh `Proxy` (default serialization flags: UUID excluded, both
transform blocks included). -/
def c1RoundTrip : Proxy :=
  (mkProxyDefault 1).read_data_from_dict (.dict (c1SourceProxy.get_proxy_as_dict false true true))

/-- A fresh default proxy, target of the C2 wrong-type setter calls. -/
def c2BaseProxy : Proxy :=
  mkProxyDefault 2

-- ---------------------------------------------------------------------------
-- ModuleGeneric (rig_framework.py lines 718-1112)
-- ---------------------------------------------------------------------------
/-- The mutable state of `ModuleGeneric` and (data-wise) of its
subclasses; `className` records the Python `__class__.__name__` and `pfx`
embeds the source attribute `self.prefix` (renamed only because of Lean's
keyword). -/
structure Module where
  className : String
  name : Option String
  pfx : Option String
  proxies : List Proxy
  parent_uuid : Option String
  metadata : Option PyDict
  active : Bool
deriving Repr

/-- `ModuleGeneric.__init__` defaults (lines 727-733). -/
def mkModuleGeneric : Module :=
  { className := "ModuleGeneric", name := none, pfx := none, proxies := [],
    parent_uuid := none, metadata := none, active := true }

/-- `ModuleGeneric.set_name` (lines 747-756): rejects `None` and
non-strings. -/
def Module.set_name (m : Module) (name : PyVal) : Module :=
  match name with
  | .str s => { m with name := some s }
  | _ => m

/-- `ModuleGeneric.set_prefix` (lines 758-767): rejects falsy values and
non-strings. -/
def Module.setPfx (m : Module) (pfx : PyVal) : Module :=
  match pfx with
  | .str s => if s = "" then m else { m with pfx := some s }
  | _ => m

/-- `ModuleGeneric.set_parent_uuid` (lines 836-850): same validation as
`Proxy.set_parent_uuid`. -/
def Module.set_parent_uuid (m : Module) (uuid : PyVal) : Module :=
  match uuid with
  | .str s =>
    if s = "" then m
    else if is_uuid_valid s || is_short_uuid_valid s then { m with parent_uuid := some s }
    else m
  | _ => m

/-- `ModuleGeneric.set_metadata_dict` (lines 800-810). -/
def Module.set_metadata_dict (m : Module) (metadata : PyVal) : Module :=
  match metadata with
  | .dict d => { m with metadata := some d }
  | _ => m

/-- `ModuleGeneric.set_active_state` (lines 812-822): accepts only a
boolean. -/
def Module.set_active_state (m : Module) (is_active : PyVal) : Module :=
  match is_active with
  | .boolean b => { m with active := b }
  | _ => m

/-- One iteration of the `read_proxies_from_dict` loop (lines 872-876):
`Proxy()` (consuming one generated UUID), `set_uuid(uuid)`,
`read_data_from_dict(description)`, append. -/
def readProxiesStep (acc : List Proxy × Nat) (kv : String × PyVal) : List Proxy × Nat :=
  let p0 := mkProxyDefault acc.2
  let p1 := p0.set_uuid (.str kv.1)
  let p2 := p1.read_data_from_dict kv.2
  (acc.1 ++ [p2], acc.2 + 1)

/-- `ModuleGeneric.read_proxies_from_dict` (lines 858-876): a falsy or
non-dict argument returns with the proxies list untouched; otherwise the
list is rebuilt from the `{uuid: proxy_dict}` entries. -/
def Module.read_proxies_from_dict (m : Module) (proxy_dict : PyVal) (seed : Nat) :
    Module × Nat :=
  match proxy_dict with
  | .dict d =>
    if d.isEmpty then (m, seed)
    else
      let r := d.foldl readProxiesStep ([], seed)
      ({ m with proxies := r.1 }, r.2)
  | _ => (m, seed)

/-- `ModuleGeneric.read_data_from_dict` (lines 878-913).  A truthy
non-dict logs and leaves the module unchanged (the source returns `None`);
a falsy non-dict raises in the source and is outside the claims' domain. -/
def Module.read_data_from_dict (m : Module) (module_dict : PyVal) (seed : Nat) :
    Module × Nat :=
  match module_dict with
  | .dict dd =>
    let m := if (pyGet dd "name").truthy then m.set_name (pyGet dd "name") else m
    let m := if (pyGet dd "prefix").truthy then m.setPfx (pyGet dd "prefix") else m
    let m := if (pyGet dd "parent").truthy then m.set_parent_uuid (pyGet dd "parent") else m
    let pv := pyGet dd "proxies"
    let r := if pv.truthy && pv.isDict then m.read_proxies_from_dict pv seed else (m, seed)
    let m2 := r.1.set_active_state (pyGet dd "active")
    let m3 := if (pyGet dd "metadata").truthy then m2.set_metadata_dict (pyGet dd "metadata") else m2
    (m3, r.2)
  | _ => (m, seed)

/-- `str.startswith` on character lists. -/
def charsStartWith : List Char → List Char → Bool
  | _, [] => true
  | [], _ :: _ => false
  | a :: s, b :: w => decide (a = b) && charsStartWith s w

/-- Modelled from the spec: `string_utils.remove_prefix` strips the word
from the start of the string when present. -/
def removePrefixWord (input_string word : String) : String :=
  if charsStartWith input_string.data word.data
  then String.mk (input_string.data.drop word.data.length)
  else input_string

/-- `ModuleGeneric.get_module_class_name` (lines 1005-1016); the Python
`__class__.__name__` of the embedded module is its `className` field. -/
def Module.get_module_class_name (m : Module) (remove_module_pfx : Bool) : String :=
  if remove_module_pfx then removePrefixWord m.className "Module" else m.className

/-- `ModuleGeneric.get_module_as_dict` (lines 976-1003): emits `name`
(when truthy), `active`, `prefix`/`parent`/`metadata` (when truthy), the
UUID-keyed `proxies` mapping, and optionally the class name. -/
def Module.get_module_as_dict (m : Module) (include_module_name include_offset_data : Bool) :
    PyDict :=
  let d : PyDict := []
  let d := match m.name with
    | some s => if s = "" then d else d ++ [("name", .str s)]
    | none => d
  let d := d ++ [("active", .boolean m.active)]
  let d := match m.pfx with
    | some s => if s = "" then d else d ++ [("prefix", .str s)]
    | none => d
  let d := match m.parent_uuid with
    | some s => if s = "" then d else d ++ [("parent", .str s)]
    | none => d
  let d := match m.metadata with
    | some md => if md.isEmpty then d else d ++ [("metadata", .dict md)]
    | none => d
  let proxDict := m.proxies.foldl
    (fun acc p => dictInsert acc p.uuid (.dict (p.get_proxy_as_dict false true include_offset_data))) []
  let d := d ++ [("proxies", .dict proxDict)]
  let d := if include_module_name then d ++ [("module", .str (m.get_module_class_name false))] else d
  d

-- ---------------------------------------------------------------------------
-- RigProject (rig_framework.py lines 1115-1409)
-- ---------------------------------------------------------------------------
/-- The mutable state of `RigProject` (lines 1122-1126); `pfx` embeds the
source attribute `self.prefix`. -/
structure RigProject where
  name : String
  pfx : Option String
  modules : List Module
  metadata : Option PyDict
deriving Repr

/-- `RigProject.__init__` defaults (lines 1122-1126). -/
def mkRigProject : RigProject :=
  { name := "Untitled", pfx := none, modules := [], metadata := none }

/-- `RigProject.set_name` (lines 1136-1145). -/
def RigProject.set_name (p : RigProject) (name : PyVal) : RigProject :=
  match name with
  | .str s => { p with name := s }
  | _ => p

/-- `RigProject.set_prefix` (lines 1147-1156). -/
def RigProject.setPfx (p : RigProject) (pfx : PyVal) : RigProject :=
  match pfx with
  | .str s => if s = "" then p else { p with pfx := some s }
  | _ => p

/-- `RigProject.set_metadata_dict` (lines 1180-1190). -/
def RigProject.set_metadata_dict (p : RigProject) (metadata : PyVal) : RigProject :=
  match metadata with
  | .dict d => { p with metadata := some d }
  | _ => p

/-- Modelled from the spec: the `RigModules` registry (rig_modules.py is
not in this snapshot) — "modules keyed by their class name ... so the
loader can reconstruct the correct specialized Module subtype".  The
embedding records the known class names; its constructors produce a
default-data module carrying that class name. -/
def rigModulesRegistry : List String := ["ModuleGeneric", "ModuleSpine"]

/-- Modelled from the spec: instantiating a registered module class. -/
def moduleFromRegistry (className : String) : Module :=
  { mkModuleGeneric with className := className }

/-- The class-name normalization of `read_modules_from_dict` (lines
1221-1222): re-add the `Module` prefix when missing. -/
def moduleLookupName (k : String) : String :=
  if charsStartWith k.data "Module".data then k else "Module" ++ k

/-- The module produced from one `{class_name: description}` entry of
`read_modules_from_dict` (lines 1220-1227): look the class up in the
registry with a `ModuleGeneric` fallback, then read the entry's data. -/
def moduleOfEntry (kv : String × PyVal) (seed : Nat) : Module × Nat :=
  let cn := moduleLookupName kv.1
  let m0 := if cn ∈ rigModulesRegistry then moduleFromRegistry cn else mkModuleGeneric
  m0.read_data_from_dict kv.2 seed

/-- One iteration of the `read_modules_from_dict` loop (lines 1220-1228):
construct the module for the entry and append it. -/
def readModulesStep (acc : List Module × Nat) (kv : String × PyVal) : List Module × Nat :=
  let r := moduleOfEntry kv acc.2
  (acc.1 ++ [r.1], r.2)

/-- The list of modules that the `read_modules_from_dict` loop produces
from the entries of a modules dictionary, starting at a given UUID seed. -/
def modulesOfDict : PyDict → Nat → List Module
  | [], _ => []
  | kv :: tl, seed => (moduleOfEntry kv seed).1 :: modulesOfDict tl (moduleOfEntry kv seed).2

/-- The UUID seed left after the `read_modules_from_dict` loop. -/
def seedAfterModules : PyDict → Nat → Nat
  | [], seed => seed
  | kv :: tl, seed => seedAfterModules tl (moduleOfEntry kv seed).2

/-- `RigProject.read_modules_from_dict` (lines 1204-1228). -/
def RigProject.read_modules_from_dict (p : RigProject) (modules_dict : PyVal) (seed : Nat) :
    RigProject × Nat :=
  match modules_dict with
  | .dict dd =>
    if dd.isEmpty then (p, seed)
    else
      let r := dd.foldl readModulesStep ([], seed)
      ({ p with modules := r.1 }, r.2)
  | _ => (p, seed)

/-- `RigProject.read_data_from_dict` (lines 1230-1260).  The source resets
`self.modules = []` and `self.metadata = None` BEFORE the isinstance
guard; a truthy non-dict then returns `None` (third component `false`)
with the project already cleared.  (A falsy non-dict raises an
`AttributeError` at the first `.get` in the source; no claim reaches that
case.) -/
def RigProject.read_data_from_dict (p : RigProject) (module_dict : PyVal) (seed : Nat) :
    RigProject × Nat × Bool :=
  let p := { p with modules := ([] : List Module), metadata := (none : Option PyDict) }
  match module_dict with
  | .dict dd =>
    let p := if (pyGet dd "name").truthy then p.set_name (pyGet dd "name") else p
    let p := if (pyGet dd "prefix").truthy then p.setPfx (pyGet dd "prefix") else p
    let mv := pyGet dd "modules"
    let r := if mv.truthy && mv.isDict then p.read_modules_from_dict mv seed else (p, seed)
    let p2 := if (pyGet dd "metadata").truthy then r.1.set_metadata_dict (pyGet dd "metadata") else r.1
    (p2, r.2, true)
  | _ => (p, seed, false)

-- ---------------------------------------------------------------------------
-- ModuleSpine (rig_module_spine.py)
-- ---------------------------------------------------------------------------
/-- The last element of a list, if any (Python `list[-1]` flavor). -/
def lastOption {α : Type} : List α → Option α
  | [] => none
  | [a] => some a
  | _ :: b :: t => lastOption (b :: t)

/-- The state of `ModuleSpine` that `set_spine_num` and
`refresh_proxies_list` operate on: the fixed `hip` (base) and `chest`
(end) proxies, the variable in-between `spines` list, and the inherited
`proxies` list.  (The inherited name/prefix/parent/metadata fields and the
orientation setup of the constructor never interact with these methods and
are left out.) -/
structure ModuleSpine where
  hip : Proxy
  chest : Proxy
  spines : List Proxy
  proxies : List Proxy
deriving Repr

/-- `str(n).zfill(2)`. -/
def zfill2 (n : Nat) : String :=
  if n < 10 then "0" ++ toString n else toString n

/-- The name and meta-type tag `spine{str(num + 1).zfill(2)}` of the loop
at rig_module_spine.py lines 77-81. -/
def spineName (num : Nat) : String :=
  "spine" ++ zfill2 (num + 1)

/-- Modelled from the spec: `ColorConstants.RigProxy.FOLLOWER`
(color_utils.py is not in this snapshot) — an RGB triple; its exact value
is irrelevant to the claims. -/
def FOLLOWER : PyVal := .list [.num (3 / 10), .num (3 / 10), .num 0]

/-- One new in-between spine proxy (loop body, lines 78-84): a fresh
`Proxy` named `spineNN`, locator scale 1, follower color, meta type
`spineNN`, meta parent and parent UUID both set to the running parent
UUID. -/
def mkSpineProxy (seed num : Nat) (parentUuid : String) : Proxy :=
  (((((mkProxyNamed seed (spineName num)).set_locator_scale (.num 1)).add_color
      FOLLOWER).set_meta_type (.str (spineName num))).add_meta_parent
      (.val (.str parentUuid))).set_parent_uuid (.str parentUuid)

/-- The `for num in range(spines_len, spine_num)` loop (lines 77-85):
append `count` new spines, re-pointing the running parent UUID at each new
spine. -/
def addSpines (spines : List Proxy) (parentUuid : String) (num count seed : Nat) :
    List Proxy × Nat :=
  match count with
  | 0 => (spines, seed)
  | c + 1 =>
    let ns := mkSpineProxy seed num parentUuid
    addSpines (spines ++ [ns]) ns.uuid (num + 1) c (seed + 1)

/-- `ModuleSpine.refresh_proxies_list` (lines 97-103): `proxies` becomes
`[hip] + spines + [chest]`. -/
def ModuleSpine.refresh_proxies_list (m : ModuleSpine) : ModuleSpine :=
  { m with proxies := [m.hip] ++ m.spines ++ [m.chest] }

/-- `ModuleSpine.set_spine_num` (lines 58-95): equal count returns early;
a higher count appends new chained spines; a lower count truncates; in
both changing cases the chest's meta parent is re-pointed at the last
in-between spine (or the hip when none remain) and the proxies list is
refreshed. -/
def ModuleSpine.set_spine_num (m : ModuleSpine) (spine_num : Nat) (seed : Nat) :
    ModuleSpine × Nat :=
  let spines_len := m.spines.length
  if spines_len = spine_num then (m, seed)
  else
    let r : ModuleSpine × Nat :=
      if spines_len < spine_num then
        let parent0 := match lastOption m.spines with
          | some q => q.uuid
          | none => m.hip.uuid
        let r2 := addSpines m.spines parent0 spines_len (spine_num - spines_len) seed
        ({ m with spines := r2.1 }, r2.2)
      else
        ({ m with spines := m.spines.take spine_num }, seed)
    let m3 :=
      match lastOption r.1.spines with
      | some q => { r.1 with chest := r.1.chest.add_meta_parent (.val (.str q.uuid)) }
      | none => { r.1 with chest := r.1.chest.add_meta_parent (.val (.str r.1.hip.uuid)) }
    (m3.refresh_proxies_list, r.2)

/-- The `hip` proxy of the `ModuleSpine` constructor (lines 40-45):
`Proxy(name="hip")`, initial position `(0, 84.5, 0)`, locator scale 1.5,
meta type `hip`. -/
def spineHipProxy (seed : Nat) : Proxy :=
  (((mkProxyNamed seed "hip").set_initial_position_xyz ⟨0, 169 / 2, 0⟩).set_locator_scale
      (.num (3 / 2))).set_meta_type (.str "hip")

/-- The `chest` proxy of the `ModuleSpine` constructor (lines 47-52):
`Proxy(name="chest")`, initial position `(0, 114.5, 0)`, locator scale
1.5, meta type `chest`. -/
def spineChestProxy (seed : Nat) : Proxy :=
  (((mkProxyNamed seed "chest").set_initial_position_xyz ⟨0, 229 / 2, 0⟩).set_locator_scale
      (.num (3 / 2))).set_meta_type (.str "chest")

/-- `ModuleSpine.__init__` (lines 34-56) restricted to its spine state:
hip and chest consume one generated UUID each, `spines = []`, then
`set_spine_num(spine_num=3)`. -/
def mkModuleSpine (seed : Nat) : ModuleSpine × Nat :=
  ModuleSpine.set_spine_num
    { hip := spineHipProxy seed, chest := spineChestProxy (seed + 1),
      spines := [], proxies := [] } 3 (seed + 2)

/-- The in-between chain property of the claim: the first proxy's
`parent_uuid` is the base UUID and each subsequent proxy's `parent_uuid`
is its predecessor's UUID. -/
def chainFrom (base : String) : List Proxy → Prop
  | [] => True
  | q :: rest => q.parent_uuid = some base ∧ chainFrom q.uuid rest

-- ---------------------------------------------------------------------------
-- Build orchestration as an event trace (rig_framework.py lines 1339-1409)
-- ---------------------------------------------------------------------------
/-- One call into the abstract scene backend made by `build_proxy` /
`build_rig`; module-level calls carry the module's index in
`self.modules`. -/
inductive BuildEvent : Type where
  | createProxyRootCurve
  | createSetupGroup
  | parentSetupToRoot
  | moduleBuildProxy (idx : Nat)
  | proxyDataSetup
  | parentProxies (idx : Nat)
  | createVisualizationLines (idx : Nat)
  | applyProxyAttrs (idx : Nat)
  | moduleBuildProxyPost (idx : Nat)
  | createControlRootCurve
  | moduleBuildRig (idx : Nat)
  | moduleBuildRigPost (idx : Nat)
  | refreshSuspendOn
  | refreshSuspendOff
  | refreshAll
deriving Repr, DecidableEq

/-- The first loop of `RigProject.build_proxy` (lines 1353-1357):
`module.build_proxy()` for each module, skipping inactive ones. -/
def buildProxyEvents : List Module → Nat → List BuildEvent
  | [], _ => []
  | m :: tl, i =>
    (if m.active then [BuildEvent.moduleBuildProxy i] else []) ++ buildProxyEvents tl (i + 1)

/-- The second loop of `RigProject.build_proxy` (lines 1364-1372):
`parent_proxies`, visualization lines, per-proxy `apply_attr_dict` and
`build_proxy_post` for each active module. -/
def proxyWireEvents : List Module → Nat → List BuildEvent
  | [], _ => []
  | m :: tl, i =>
    (if m.active then
      [BuildEvent.parentProxies i, BuildEvent.createVisualizationLines i,
       BuildEvent.applyProxyAttrs i, BuildEvent.moduleBuildProxyPost i]
     else []) ++ proxyWireEvents tl (i + 1)

/-- The first loop of `RigProject.build_rig` (lines 1393-1397):
`module.build_rig()` (joint creation) for each active module. -/
def buildRigEvents : List Module → Nat → List BuildEvent
  | [], _ => []
  | m :: tl, i =>
    (if m.active then [BuildEvent.moduleBuildRig i] else []) ++ buildRigEvents tl (i + 1)

/-- The second loop of `RigProject.build_rig` (lines 1399-1403):
`module.build_rig_post()` (joint parenting) for each active module. -/
def buildRigPostEvents : List Module → Nat → List BuildEvent
  | [], _ => []
  | m :: tl, i =>
    (if m.active then [BuildEvent.moduleBuildRigPost i] else []) ++ buildRigPostEvents tl (i + 1)

/-- The body of `RigProject.build_proxy` inside its try block (lines
1345-1372): root curve and setup group creation, the build loop over all
modules, the `ProxyData` coloring/parenting loop (collapsed to one
marker), then the wiring loop. -/
def RigProject.build_proxy_body (p : RigProject) : List BuildEvent :=
  [.createProxyRootCurve, .createSetupGroup, .parentSetupToRoot]
    ++ buildProxyEvents p.modules 0
    ++ [.proxyDataSetup]
    ++ proxyWireEvents p.modules 0

/-- The body of `RigProject.build_rig` inside its try block (lines
1385-1403). -/
def RigProject.build_rig_body (p : RigProject) : List BuildEvent :=
  [.createControlRootCurve, .createSetupGroup, .parentSetupToRoot]
    ++ buildRigEvents p.modules 0
    ++ buildRigPostEvents p.modules 0

/-- Runs body events against a scene-backend oracle that may make any call
raise: execution stops at the first raising call (Python exception
semantics), yielding the executed trace and the raised error, if any. -/
def runEvents (oracle : BuildEvent → Option String) :
    List BuildEvent → List BuildEvent × Option String
  | [] => ([], none)
  | e :: tl =>
    match oracle e with
    | some err => ([e], some err)
    | none =>
      let r := runEvents oracle tl
      (e :: r.1, r.2)

/-- `RigProject.build_proxy` (lines 1339-1377): `cmds.refresh(suspend=True)`,
the try body, `except ... raise e` (identity on the exception), and the
finally block `cmds.refresh(suspend=False); cmds.refresh()` which runs on
every exit path. -/
def RigProject.build_proxy_exec (p : RigProject) (oracle : BuildEvent → Option String) :
    List BuildEvent × Option String :=
  let r := runEvents oracle p.build_proxy_body
  (.refreshSuspendOn :: (r.1 ++ [.refreshSuspendOff, .refreshAll]), r.2)

/-- `RigProject.build_rig` (lines 1379-1409): the same bracket around the
rig body. -/
def RigProject.build_rig_exec (p : RigProject) (oracle : BuildEvent → Option String) :
    List BuildEvent × Option String :=
  let r := runEvents oracle p.build_rig_body
  (.refreshSuspendOn :: (r.1 ++ [.refreshSuspendOff, .refreshAll]), r.2)

/-- The UUID-keyed / class-name-keyed dictionary builder shared by
`get_module_as_dict` and `get_project_as_dict`: a fold of Python dict
assignments `d[key(x)] = val(x)` over a list. -/
def buildKeyedDict {α : Type} (key : α → String) (val : α → PyVal) (l : List α) (acc : PyDict) :
    PyDict :=
  l.foldl (fun d x => dictInsert d (key x) (val x)) acc

/-- The class-name key used by `get_project_as_dict` (line 1315). -/
def moduleClassKey (m : Module) : String :=
  m.get_module_class_name true

/-- The serialized form of one module as stored by `get_project_as_dict`
(line 1316). -/
def moduleClassVal (m : Module) : PyVal :=
  .dict (m.get_module_as_dict false true)

/-- The `project_modules` dictionary of `RigProject.get_project_as_dict`
(lines 1313-1316): keyed by class name with the `Module` prefix removed —
a later module with the same class name overwrites the earlier entry. -/
def RigProject.projectModulesDict (p : RigProject) : PyDict :=
  buildKeyedDict moduleClassKey moduleClassVal p.modules []

/-- `RigProject.get_project_as_dict` (lines 1307-1327). -/
def RigProject.get_project_as_dict (p : RigProject) : PyDict :=
  let d : PyDict := []
  let d := if p.name = "" then d else d ++ [("name", .str p.name)]
  let d := match p.pfx with
    | some s => if s = "" then d else d ++ [("prefix", .str s)]
    | none => d
  let d := d ++ [("modules", .dict p.projectModulesDict)]
  let d := match p.metadata with
    | some md => if md.isEmpty then d else d ++ [("metadata", .dict md)]
    | none => d
  d

/-- A project holding one module and some metadata, used to witness C10. -/
def c10Project : RigProject :=
  { mkRigProject with modules := [mkModuleGeneric], metadata := some [("flavor", .num 1)] }

/-- A project holding two modules of the same class, used to witness C3. -/
def c3DupProject : RigProject :=
  { mkRigProject with modules := [mkModuleGeneric, mkModuleGeneric] }

/-- The module that `read_modules_from_dict` builds from a description when
the class name is not in the registry: a `ModuleGeneric()` that reads the
description. -/
def moduleReadGeneric (desc : PyVal) (s : Nat) : Module :=
  (mkModuleGeneric.read_data_from_dict desc s).1

/-- A module description with an unknown class name, used to witness C8. -/
def c8Desc : PyDict := [("name", .str "mystery"), ("active", .boolean false)]

/-- A modules dictionary keyed by the unknown class name `Mystery`. -/
def c8ModulesDict : PyDict := [("Mystery", .dict c8Desc)]

-- ---------------------------------------------------------------------------
-- C9: the parent_uuid format invariant
-- ---------------------------------------------------------------------------
/-- The invariant from the spec: `parent_uuid`, if set, validates as a
well-formed UUID string, full or short form. -/
def validParentUuid (p : Proxy) : Prop :=
  ∀ u : String, p.parent_uuid = some u →
    (is_uuid_valid u = true ∨ is_short_uuid_valid u = true)

/-- A two-module project (both active) used to witness C4 and C5. -/
def c4Project : RigProject :=
  { mkRigProject with modules := [mkModuleGeneric, { mkModuleGeneric with className := "ModuleSpine" }] }

/-- An oracle that makes the backend raise at module 1's joint creation,
used to witness C5's exception propagation. -/
def c5Oracle : BuildEvent → Option String :=
  fun e => if e = .moduleBuildRig 1 then some "backend exception" else none

/-- The freshly constructed spine module. -/
def c6Stage0 (n : Nat) : ModuleSpine × Nat := mkModuleSpine n

/-- The module after the claim's `set_spine_num(3)` call. -/
def c6Stage1 (n : Nat) : ModuleSpine × Nat :=
  ((c6Stage0 n).1).set_spine_num 3 (c6Stage0 n).2

/-- The module after the claim's subsequent `set_spine_num(6)` call. -/
def c6Stage2 (n : Nat) : ModuleSpine × Nat :=
  ((c6Stage1 n).1).set_spine_num 6 (c6Stage1 n).2

-- ===========================================================================
-- Theorems
-- ===========================================================================

theorem dictContains_insert (d : PyDict) (k k0 : String) (v : PyVal) :
    dictContains (dictInsert d k v) k0 = (dictContains d k0 || decide (k = k0)) := by
  induction d with
  | nil => simp [dictContains, dictInsert]
  | cons hd tl ih =>
    by_cases hhd : hd.1 = k
    · subst hhd
      simp only [dictInsert, if_pos rfl, dictContains]
      by_cases hk0 : hd.1 = k0 <;> simp [hk0]
    · simp only [dictInsert, if_neg hhd, dictContains, ih, Bool.or_assoc]

theorem length_dictInsert (d : PyDict) (k : String) (v : PyVal) :
    (dictInsert d k v).length = if dictContains d k then d.length else d.length + 1 := by
  induction d with
  | nil => simp [dictContains, dictInsert]
  | cons hd tl ih =>
    by_cases hhd : hd.1 = k
    · simp [dictInsert, hhd, dictContains]
    · simp only [dictInsert, if_neg hhd, List.length_cons]
      rw [ih]
      have hcc : dictContains (hd :: tl) k = dictContains tl k := by
        simp [dictContains, hhd]
      rw [hcc]
      by_cases htl : dictContains tl k = true <;> simp [htl]

theorem dictFind_insert_self (d : PyDict) (k : String) (v : PyVal) :
    dictFind (dictInsert d k v) k = some v := by
  induction d with
  | nil => simp [dictInsert, dictFind]
  | cons hd tl ih =>
    by_cases hhd : hd.1 = k
    · simp [dictInsert, hhd, dictFind]
    · simp [dictInsert, hhd, dictFind, ih]

theorem dictFind_insert_other (d : PyDict) (k k0 : String) (v : PyVal)
    (h : k0 ≠ k) :
    dictFind (dictInsert d k v) k0 = dictFind d k0 := by
  induction d with
  | nil => simp [dictInsert, dictFind, Ne.symm h]
  | cons hd tl ih =>
    by_cases hhd : hd.1 = k
    · simp [dictInsert, hhd, dictFind, Ne.symm h]
    · by_cases hhd0 : hd.1 = k0
      · simp [dictInsert, hhd, dictFind, hhd0, h]
      · simp [dictInsert, hhd, dictFind, hhd0, ih]

theorem isHexChar_hexChar (n : Nat) : isHexChar (hexChar n) = true := by
  unfold hexChar isHexChar
  have h16 : n % 16 < hexDigitChars.length := by
    have hl : hexDigitChars.length = 16 := rfl
    rw [hl]
    exact Nat.mod_lt _ (by decide)
  rw [List.getD_eq_getElem hexDigitChars '0' h16]
  exact List.elem_eq_true_of_mem (hexDigitChars.getElem_mem h16)

theorem generate_uuid_valid (seed : Nat) : is_uuid_valid (generate_uuid seed) = true := by
  unfold is_uuid_valid generate_uuid
  apply Bool.and_eq_true_iff.mpr
  constructor
  · simp [String.length]
  · apply List.all_eq_true.mpr
    intro c hc
    simp only [String.data] at hc
    rcases List.mem_map.mp hc with ⟨i, _, rfl⟩
    exact isHexChar_hexChar _

theorem generate_uuid_length (seed : Nat) : (generate_uuid seed).length = 32 := by
  unfold generate_uuid
  simp [String.length]

theorem generate_uuid_not_empty (seed : Nat) :
    (generate_uuid seed == "") = false := by
  cases hbe : (generate_uuid seed == "")
  · rfl
  · have he : generate_uuid seed = "" := by simpa using hbe
    have := generate_uuid_length seed
    rw [he] at this
    simp at this

theorem generate_uuid_ne_empty (seed : Nat) : generate_uuid seed ≠ "" := by
  intro he
  have := generate_uuid_length seed
  rw [he] at this
  simp at this

theorem transform_as_dict_roundtrip (t0 t : Transform) :
    t0.set_transform_from_dict t.get_transform_as_dict = t := rfl

/-- C1: the claimed round trip `get_proxy_as_dict()` →
`read_data_from_dict()` reproduces `name`, `parent_uuid`, `locator_scale`
and the main transform block, but the offset transform block comes back
holding the MAIN transform's values: line 584 of rig_framework.py passes
the `transform` entry (not the `offsetTransform` entry) to
`set_transform_from_dict`.  Evaluated at a proxy whose two transforms
differ, the round trip therefore does not reproduce `offset_transform`. -/
theorem c1_roundtrip_offset_bug :
    c1RoundTrip.name = c1SourceProxy.name
      ∧ c1RoundTrip.parent_uuid = c1SourceProxy.parent_uuid
      ∧ c1RoundTrip.locator_scale = c1SourceProxy.locator_scale
      ∧ c1RoundTrip.transform = c1SourceProxy.transform
      ∧ c1RoundTrip.offset_transform = c1SourceProxy.transform
      ∧ c1SourceProxy.offset_transform ≠ c1SourceProxy.transform
      ∧ c1RoundTrip.offset_transform ≠ c1SourceProxy.offset_transform :=
  ⟨rfl, rfl, rfl, rfl, rfl, by decide, by decide⟩

/-- C2: of the nine setters named by the claim, eight do reject a
wrong-typed argument as a logged no-op (the proxy value is unchanged), but
`set_locator_scale` does not: its isinstance guard logs the rejection
message and the assignment still happens, so the wrong-typed value ends up
stored in `locator_scale`. -/
theorem c2_set_locator_scale_not_a_noop :
    c2BaseProxy.set_name (.num 7) = c2BaseProxy
      ∧ c2BaseProxy.set_transform (.val (.str "bad")) = c2BaseProxy
      ∧ c2BaseProxy.set_offset_transform (.val (.num 0)) = c2BaseProxy
      ∧ c2BaseProxy.set_curve (.val (.str "bad")) false = c2BaseProxy
      ∧ c2BaseProxy.set_attr_dict (.str "bad") = c2BaseProxy
      ∧ c2BaseProxy.set_metadata_dict (.list []) = c2BaseProxy
      ∧ c2BaseProxy.set_uuid (.num 3) = c2BaseProxy
      ∧ c2BaseProxy.set_parent_uuid (.str "not-a-uuid") = c2BaseProxy
      ∧ Proxy.set_locator_scale_logs_rejection (.str "invalid") = true
      ∧ (c2BaseProxy.set_locator_scale (.str "invalid")).locator_scale = .str "invalid"
      ∧ c2BaseProxy.locator_scale = .num 1 :=
  ⟨rfl, rfl, rfl, rfl, rfl, rfl, rfl, rfl, rfl, rfl, rfl⟩

/-- C10: `RigProject.read_data_from_dict` resets `modules` and `metadata`
before validating its argument, so every truthy non-dictionary input makes
it return `None` (third component `false`) with the project already
cleared — `name` and `prefix` survive, the prior modules and metadata are
lost even though the input was rejected. -/
theorem c10_read_data_clears_before_validation
    (p : RigProject) (v : PyVal) (seed : Nat)
    (htruthy : v.truthy = true) (hdict : v.isDict = false) :
    p.read_data_from_dict v seed
      = ({ p with modules := [], metadata := none }, seed, false) := by
  cases v <;> simp_all [RigProject.read_data_from_dict, PyVal.isDict]

/-- Witness for C10: the concrete truthy non-dict input `"oops"` on a
project that has a module and metadata. -/
theorem c10_read_data_clears_before_validation_witness :
    PyVal.truthy (.str "oops") = true
      ∧ PyVal.isDict (.str "oops") = false
      ∧ c10Project.read_data_from_dict (.str "oops") 0
          = ({ c10Project with modules := [], metadata := none }, 0, false) :=
  ⟨by decide, by decide,
    c10_read_data_clears_before_validation c10Project (.str "oops") 0 (by decide) (by decide)⟩

-- ---------------------------------------------------------------------------
-- Association-list and keyed-dict lemmas supporting C3 and C8
-- ---------------------------------------------------------------------------
theorem lastOption_cons {α : Type} (a : α) (l : List α) :
    lastOption (a :: l) = some ((lastOption l).getD a) := by
  induction l generalizing a with
  | nil => rfl
  | cons b t ih =>
    show lastOption (b :: t) = _
    rw [ih b]
    rfl

theorem dictContains_eq_isSome_find (d : PyDict) (k : String) :
    dictContains d k = (dictFind d k).isSome := by
  induction d with
  | nil => rfl
  | cons hd tl ih =>
    by_cases hhd : hd.1 = k <;> simp [dictContains, dictFind, hhd, ih]

theorem le_length_dictInsert (d : PyDict) (k : String) (v : PyVal) :
    d.length ≤ (dictInsert d k v).length := by
  rw [length_dictInsert]
  split <;> omega

theorem length_dictInsert_le (d : PyDict) (k : String) (v : PyVal) :
    (dictInsert d k v).length ≤ d.length + 1 := by
  rw [length_dictInsert]
  split <;> omega

theorem buildKeyedDict_find {α : Type} (key : α → String) (val : α → PyVal)
    (l : List α) (acc : PyDict) (c : String) :
    dictFind (buildKeyedDict key val l acc) c
      = match lastOption (l.filter (fun x => decide (key x = c))) with
        | some x => some (val x)
        | none => dictFind acc c := by
  induction l generalizing acc with
  | nil => rfl
  | cons m tl ih =>
    show dictFind (buildKeyedDict key val tl (dictInsert acc (key m) (val m))) c = _
    rw [ih]
    by_cases hk : key m = c
    · have hdec : decide (key m = c) = true := by simp [hk]
      simp only [List.filter_cons, hdec, if_true, lastOption_cons]
      cases hfl : lastOption (tl.filter (fun x => decide (key x = c))) with
      | some x => simp [hfl]
      | none =>
        simp only [hfl, Option.getD_none]
        rw [← hk]
        exact dictFind_insert_self acc (key m) (val m)
    · have hdec : decide (key m = c) = false := by simp [hk]
      simp only [List.filter_cons, hdec, if_false]
      cases hfl : lastOption (tl.filter (fun x => decide (key x = c))) with
      | some x => simp [hfl]
      | none => simp [hfl, dictFind_insert_other acc (key m) c (val m) (fun he => hk he.symm)]

theorem buildKeyedDict_length_le {α : Type} (key : α → String) (val : α → PyVal)
    (l : List α) (acc : PyDict) :
    (buildKeyedDict key val l acc).length ≤ acc.length + l.length := by
  induction l generalizing acc with
  | nil => simp [buildKeyedDict]
  | cons m tl ih =>
    show (buildKeyedDict key val tl (dictInsert acc (key m) (val m))).length ≤ _
    have h1 := ih (dictInsert acc (key m) (val m))
    have h2 := length_dictInsert_le acc (key m) (val m)
    simp only [List.length_cons]
    omega

theorem acc_length_le_buildKeyedDict {α : Type} (key : α → String) (val : α → PyVal)
    (l : List α) (acc : PyDict) :
    acc.length ≤ (buildKeyedDict key val l acc).length := by
  induction l generalizing acc with
  | nil => simp [buildKeyedDict]
  | cons m tl ih =>
    show acc.length ≤ (buildKeyedDict key val tl (dictInsert acc (key m) (val m))).length
    have h1 := ih (dictInsert acc (key m) (val m))
    have h2 := le_length_dictInsert acc (key m) (val m)
    omega

theorem buildKeyedDict_ne_nil {α : Type} (key : α → String) (val : α → PyVal)
    (l : List α) (acc : PyDict) (h : l ≠ []) :
    buildKeyedDict key val l acc ≠ [] := by
  cases l with
  | nil => exact absurd rfl h
  | cons m tl =>
    have h2 : 0 < (dictInsert acc (key m) (val m)).length := by
      rw [length_dictInsert]
      split
      · rename_i hc
        cases acc with
        | nil => simp [dictContains] at hc
        | cons x xs => simp
      · omega
    have h1 := acc_length_le_buildKeyedDict key val tl (dictInsert acc (key m) (val m))
    have : 0 < (buildKeyedDict key val (m :: tl) acc).length := by
      show 0 < (buildKeyedDict key val tl (dictInsert acc (key m) (val m))).length
      omega
    exact List.ne_nil_of_length_pos this

theorem buildKeyedDict_length_lt_of_contains {α : Type} (key : α → String) (val : α → PyVal)
    (l : List α) (acc : PyDict) (h : ∃ x ∈ l, dictContains acc (key x) = true) :
    (buildKeyedDict key val l acc).length < acc.length + l.length := by
  induction l generalizing acc with
  | nil => rcases h with ⟨x, hx, _⟩; cases hx
  | cons m tl ih =>
    show (buildKeyedDict key val tl (dictInsert acc (key m) (val m))).length < _
    rcases h with ⟨x, hx, hxc⟩
    rcases List.mem_cons.mp hx with hx | hx
    · subst hx
      have heq : (dictInsert acc (key x) (val x)).length = acc.length := by
        rw [length_dictInsert, if_pos hxc]
      have h1 := buildKeyedDict_length_le key val tl (dictInsert acc (key x) (val x))
      simp only [List.length_cons]
      omega
    · have hxc2 : dictContains (dictInsert acc (key m) (val m)) (key x) = true := by
        rw [dictContains_insert, hxc]
        rfl
      have h1 := ih (dictInsert acc (key m) (val m)) ⟨x, hx, hxc2⟩
      have h2 := length_dictInsert_le acc (key m) (val m)
      simp only [List.length_cons]
      omega

theorem buildKeyedDict_length_lt_of_dup {α : Type} (key : α → String) (val : α → PyVal)
    (l : List α) (acc : PyDict) (h : ¬ (l.map key).Nodup) :
    (buildKeyedDict key val l acc).length < acc.length + l.length := by
  induction l generalizing acc with
  | nil => simp at h
  | cons m tl ih =>
    show (buildKeyedDict key val tl (dictInsert acc (key m) (val m))).length < _
    rw [List.map_cons, List.nodup_cons] at h
    push_neg at h
    by_cases hmem : key m ∈ tl.map key
    · rcases List.mem_map.mp hmem with ⟨x, hx, hxk⟩
      have hxc : dictContains (dictInsert acc (key m) (val m)) (key x) = true := by
        rw [dictContains_insert, hxk]
        simp
      have h1 := buildKeyedDict_length_lt_of_contains key val tl
        (dictInsert acc (key m) (val m)) ⟨x, hx, hxc⟩
      have h2 := length_dictInsert_le acc (key m) (val m)
      simp only [List.length_cons]
      omega
    · have hdup : ¬ (tl.map key).Nodup := h hmem
      have h1 := ih (dictInsert acc (key m) (val m)) hdup
      have h2 := length_dictInsert_le acc (key m) (val m)
      simp only [List.length_cons]
      omega

-- ---------------------------------------------------------------------------
-- Shape lemmas for the deserialization loops
-- ---------------------------------------------------------------------------
theorem foldl_readModulesStep (dd : PyDict) :
    ∀ acc : List Module × Nat,
      dd.foldl readModulesStep acc
        = (acc.1 ++ modulesOfDict dd acc.2, seedAfterModules dd acc.2) := by
  induction dd with
  | nil => intro acc; simp [modulesOfDict, seedAfterModules]
  | cons kv tl ih =>
    intro acc
    show tl.foldl readModulesStep (readModulesStep acc kv) = _
    rw [ih]
    simp [readModulesStep, modulesOfDict, seedAfterModules]

theorem modulesOfDict_length (dd : PyDict) :
    ∀ seed : Nat, (modulesOfDict dd seed).length = dd.length := by
  induction dd with
  | nil => intro seed; rfl
  | cons kv tl ih => intro seed; simp [modulesOfDict, ih]

theorem modulesOfDict_get (dd : PyDict) :
    ∀ (seed i : Nat) (kv : String × PyVal), dd.get? i = some kv →
      ∃ s : Nat, (modulesOfDict dd seed).get? i = some (moduleOfEntry kv s).1 := by
  induction dd with
  | nil => intro seed i kv h; simp at h
  | cons hd tl ih =>
    intro seed i kv h
    cases i with
    | zero =>
      simp only [List.get?] at h
      cases h
      exact ⟨seed, rfl⟩
    | succ j =>
      simp only [List.get?] at h
      rcases ih (moduleOfEntry hd seed).2 j kv h with ⟨s, hs⟩
      exact ⟨s, hs⟩

theorem foldl_readProxiesStep_length (pd : PyDict) :
    ∀ acc : List Proxy × Nat,
      ((pd.foldl readProxiesStep acc).1).length = acc.1.length + pd.length := by
  induction pd with
  | nil => intro acc; simp
  | cons kv tl ih =>
    intro acc
    show ((tl.foldl readProxiesStep (readProxiesStep acc kv)).1).length = _
    rw [ih]
    simp [readProxiesStep]
    omega

-- Field-preservation lemmas for the `Module` setters (each setter either
-- rejects its input or updates exactly one field).
@[simp] theorem Module.set_name_className (m : Module) (v : PyVal) :
    (m.set_name v).className = m.className := by cases v <;> rfl

@[simp] theorem Module.set_name_pfx (m : Module) (v : PyVal) :
    (m.set_name v).pfx = m.pfx := by cases v <;> rfl

@[simp] theorem Module.set_name_parent_uuid (m : Module) (v : PyVal) :
    (m.set_name v).parent_uuid = m.parent_uuid := by cases v <;> rfl

@[simp] theorem Module.set_name_proxies (m : Module) (v : PyVal) :
    (m.set_name v).proxies = m.proxies := by cases v <;> rfl

@[simp] theorem Module.set_name_metadata (m : Module) (v : PyVal) :
    (m.set_name v).metadata = m.metadata := by cases v <;> rfl

@[simp] theorem Module.set_name_active (m : Module) (v : PyVal) :
    (m.set_name v).active = m.active := by cases v <;> rfl

@[simp] theorem Module.setPfx_className (m : Module) (v : PyVal) :
    (m.setPfx v).className = m.className := by
  cases v <;> dsimp only [Module.setPfx] <;> first | rfl | (split_ifs <;> rfl)

@[simp] theorem Module.setPfx_name (m : Module) (v : PyVal) :
    (m.setPfx v).name = m.name := by
  cases v <;> dsimp only [Module.setPfx] <;> first | rfl | (split_ifs <;> rfl)

@[simp] theorem Module.setPfx_parent_uuid (m : Module) (v : PyVal) :
    (m.setPfx v).parent_uuid = m.parent_uuid := by
  cases v <;> dsimp only [Module.setPfx] <;> first | rfl | (split_ifs <;> rfl)

@[simp] theorem Module.setPfx_proxies (m : Module) (v : PyVal) :
    (m.setPfx v).proxies = m.proxies := by
  cases v <;> dsimp only [Module.setPfx] <;> first | rfl | (split_ifs <;> rfl)

@[simp] theorem Module.setPfx_metadata (m : Module) (v : PyVal) :
    (m.setPfx v).metadata = m.metadata := by
  cases v <;> dsimp only [Module.setPfx] <;> first | rfl | (split_ifs <;> rfl)

@[simp] theorem Module.setPfx_active (m : Module) (v : PyVal) :
    (m.setPfx v).active = m.active := by
  cases v <;> dsimp only [Module.setPfx] <;> first | rfl | (split_ifs <;> rfl)

@[simp] theorem Module.set_parent_uuid_className (m : Module) (v : PyVal) :
    (m.set_parent_uuid v).className = m.className := by
  cases v <;> dsimp only [Module.set_parent_uuid] <;> first | rfl | (split_ifs <;> rfl)

@[simp] theorem Module.set_parent_uuid_name (m : Module) (v : PyVal) :
    (m.set_parent_uuid v).name = m.name := by
  cases v <;> dsimp only [Module.set_parent_uuid] <;> first | rfl | (split_ifs <;> rfl)

@[simp] theorem Module.set_parent_uuid_pfx (m : Module) (v : PyVal) :
    (m.set_parent_uuid v).pfx = m.pfx := by
  cases v <;> dsimp only [Module.set_parent_uuid] <;> first | rfl | (split_ifs <;> rfl)

@[simp] theorem Module.set_parent_uuid_proxies (m : Module) (v : PyVal) :
    (m.set_parent_uuid v).proxies = m.proxies := by
  cases v <;> dsimp only [Module.set_parent_uuid] <;> first | rfl | (split_ifs <;> rfl)

@[simp] theorem Module.set_parent_uuid_metadata (m : Module) (v : PyVal) :
    (m.set_parent_uuid v).metadata = m.metadata := by
  cases v <;> dsimp only [Module.set_parent_uuid] <;> first | rfl | (split_ifs <;> rfl)

@[simp] theorem Module.set_parent_uuid_active (m : Module) (v : PyVal) :
    (m.set_parent_uuid v).active = m.active := by
  cases v <;> dsimp only [Module.set_parent_uuid] <;> first | rfl | (split_ifs <;> rfl)

@[simp] theorem Module.read_proxies_className (m : Module) (v : PyVal) (s : Nat) :
    (m.read_proxies_from_dict v s).1.className = m.className := by
  cases v <;> dsimp only [Module.read_proxies_from_dict] <;> first | rfl | (split_ifs <;> rfl)

@[simp] theorem Module.read_proxies_name (m : Module) (v : PyVal) (s : Nat) :
    (m.read_proxies_from_dict v s).1.name = m.name := by
  cases v <;> dsimp only [Module.read_proxies_from_dict] <;> first | rfl | (split_ifs <;> rfl)

@[simp] theorem Module.read_proxies_pfx (m : Module) (v : PyVal) (s : Nat) :
    (m.read_proxies_from_dict v s).1.pfx = m.pfx := by
  cases v <;> dsimp only [Module.read_proxies_from_dict] <;> first | rfl | (split_ifs <;> rfl)

@[simp] theorem Module.read_proxies_parent_uuid (m : Module) (v : PyVal) (s : Nat) :
    (m.read_proxies_from_dict v s).1.parent_uuid = m.parent_uuid := by
  cases v <;> dsimp only [Module.read_proxies_from_dict] <;> first | rfl | (split_ifs <;> rfl)

@[simp] theorem Module.read_proxies_metadata (m : Module) (v : PyVal) (s : Nat) :
    (m.read_proxies_from_dict v s).1.metadata = m.metadata := by
  cases v <;> dsimp only [Module.read_proxies_from_dict] <;> first | rfl | (split_ifs <;> rfl)

@[simp] theorem Module.read_proxies_active (m : Module) (v : PyVal) (s : Nat) :
    (m.read_proxies_from_dict v s).1.active = m.active := by
  cases v <;> dsimp only [Module.read_proxies_from_dict] <;> first | rfl | (split_ifs <;> rfl)

@[simp] theorem Module.set_active_state_className (m : Module) (v : PyVal) :
    (m.set_active_state v).className = m.className := by cases v <;> rfl

@[simp] theorem Module.set_active_state_name (m : Module) (v : PyVal) :
    (m.set_active_state v).name = m.name := by cases v <;> rfl

@[simp] theorem Module.set_active_state_pfx (m : Module) (v : PyVal) :
    (m.set_active_state v).pfx = m.pfx := by cases v <;> rfl

@[simp] theorem Module.set_active_state_parent_uuid (m : Module) (v : PyVal) :
    (m.set_active_state v).parent_uuid = m.parent_uuid := by cases v <;> rfl

@[simp] theorem Module.set_active_state_proxies (m : Module) (v : PyVal) :
    (m.set_active_state v).proxies = m.proxies := by cases v <;> rfl

@[simp] theorem Module.set_active_state_metadata (m : Module) (v : PyVal) :
    (m.set_active_state v).metadata = m.metadata := by cases v <;> rfl

@[simp] theorem Module.set_metadata_dict_className (m : Module) (v : PyVal) :
    (m.set_metadata_dict v).className = m.className := by cases v <;> rfl

@[simp] theorem Module.set_metadata_dict_name (m : Module) (v : PyVal) :
    (m.set_metadata_dict v).name = m.name := by cases v <;> rfl

@[simp] theorem Module.set_metadata_dict_pfx (m : Module) (v : PyVal) :
    (m.set_metadata_dict v).pfx = m.pfx := by cases v <;> rfl

@[simp] theorem Module.set_metadata_dict_parent_uuid (m : Module) (v : PyVal) :
    (m.set_metadata_dict v).parent_uuid = m.parent_uuid := by cases v <;> rfl

@[simp] theorem Module.set_metadata_dict_proxies (m : Module) (v : PyVal) :
    (m.set_metadata_dict v).proxies = m.proxies := by cases v <;> rfl

@[simp] theorem Module.set_metadata_dict_active (m : Module) (v : PyVal) :
    (m.set_metadata_dict v).active = m.active := by cases v <;> rfl

@[simp] theorem RigProject.set_metadata_dict_modules (p : RigProject) (v : PyVal) :
    (p.set_metadata_dict v).modules = p.modules := by cases v <;> rfl

theorem pyGet_project_modules (p : RigProject) :
    pyGet p.get_project_as_dict "modules" = .dict p.projectModulesDict := by
  rcases p with ⟨nm, pfxo, mods, mdo⟩
  unfold RigProject.get_project_as_dict pyGet
  rcases pfxo with _ | pf <;> rcases mdo with _ | md <;>
    dsimp only <;> split_ifs <;> simp [dictFind]

theorem read_data_modules_of_dict (p : RigProject) (dd : PyDict) (seed : Nat) (md : PyDict)
    (hmv : pyGet dd "modules" = .dict md) (hne : md ≠ []) :
    ((p.read_data_from_dict (.dict dd) seed).1).modules = modulesOfDict md seed := by
  have hie : md.isEmpty = false := by
    cases md with
    | nil => exact absurd rfl hne
    | cons a b => rfl
  have htr : (PyVal.dict md).truthy = true := by simp [PyVal.truthy, hie]
  simp only [RigProject.read_data_from_dict, hmv, htr, PyVal.isDict, Bool.and_self, if_true]
  simp only [RigProject.read_modules_from_dict, hie, Bool.false_eq_true, if_false]
  rw [foldl_readModulesStep]
  split_ifs <;> simp

-- What `Module.read_data_from_dict` leaves in each field.
theorem module_read_className (m : Module) (v : PyVal) (s : Nat) :
    (m.read_data_from_dict v s).1.className = m.className := by
  cases v <;> try rfl
  simp only [Module.read_data_from_dict]
  split_ifs <;> simp

theorem module_read_name_of_str (m : Module) (dd : PyDict) (s : Nat) (nm : String)
    (hget : pyGet dd "name" = .str nm) (hne : nm ≠ "") :
    (m.read_data_from_dict (.dict dd) s).1.name = some nm := by
  have htr : (PyVal.str nm).truthy = true := by simp [PyVal.truthy, hne]
  simp only [Module.read_data_from_dict, hget, htr, if_true]
  split_ifs <;> simp [Module.set_name]

theorem module_read_pfx_of_str (m : Module) (dd : PyDict) (s : Nat) (pf : String)
    (hget : pyGet dd "prefix" = .str pf) (hne : pf ≠ "") :
    (m.read_data_from_dict (.dict dd) s).1.pfx = some pf := by
  have htr : (PyVal.str pf).truthy = true := by simp [PyVal.truthy, hne]
  simp only [Module.read_data_from_dict, hget, htr, if_true]
  split_ifs <;> simp [Module.setPfx, hne]

theorem is_uuid_valid_ne_empty (s : String) (h : is_uuid_valid s = true) : s ≠ "" := by
  intro he
  rw [he] at h
  exact absurd h (by decide)

theorem module_read_parent_of_valid (m : Module) (dd : PyDict) (s : Nat) (pu : String)
    (hget : pyGet dd "parent" = .str pu) (hval : is_uuid_valid pu = true) :
    (m.read_data_from_dict (.dict dd) s).1.parent_uuid = some pu := by
  have hne := is_uuid_valid_ne_empty pu hval
  have htr : (PyVal.str pu).truthy = true := by simp [PyVal.truthy, hne]
  simp only [Module.read_data_from_dict, hget, htr, if_true]
  split_ifs <;> simp [Module.set_parent_uuid, hne, hval]

theorem module_read_active_of_bool (m : Module) (dd : PyDict) (s : Nat) (b : Bool)
    (hget : pyGet dd "active" = .boolean b) :
    (m.read_data_from_dict (.dict dd) s).1.active = b := by
  simp only [Module.read_data_from_dict, hget]
  split_ifs <;> simp [Module.set_active_state]

theorem module_read_metadata_of_dict (m : Module) (dd : PyDict) (s : Nat) (md : PyDict)
    (hget : pyGet dd "metadata" = .dict md) (hne : md ≠ []) :
    (m.read_data_from_dict (.dict dd) s).1.metadata = some md := by
  have hie : md.isEmpty = false := by
    cases md with
    | nil => exact absurd rfl hne
    | cons a b => rfl
  have htr : (PyVal.dict md).truthy = true := by simp [PyVal.truthy, hie]
  simp only [Module.read_data_from_dict, hget, htr, if_true]
  split_ifs <;> simp [Module.set_metadata_dict]

theorem module_read_proxies_length (m : Module) (dd : PyDict) (s : Nat) (pd : PyDict)
    (hget : pyGet dd "proxies" = .dict pd) (hne : pd ≠ []) :
    ((m.read_data_from_dict (.dict dd) s).1).proxies.length = pd.length := by
  have hie : pd.isEmpty = false := by
    cases pd with
    | nil => exact absurd rfl hne
    | cons a b => rfl
  have htr : (PyVal.dict pd).truthy = true := by simp [PyVal.truthy, hie]
  simp only [Module.read_data_from_dict, hget, htr, PyVal.isDict, Bool.and_self, if_true]
  simp only [Module.read_proxies_from_dict, hie, Bool.false_eq_true, if_false]
  split_ifs <;> simp [foldl_readProxiesStep_length]

/-- C3: the serialized `modules` mapping is keyed by class name with the
`Module` prefix removed, so the entry for a class name holds the data of
the LAST module with that class (part 1); when two modules share a class
name, the round trip `get_project_as_dict` → `read_data_from_dict`
therefore yields strictly fewer modules than the project had — the module
list survives the round trip only when all class names are distinct
(part 2). -/
theorem c3_project_dict_keyed_by_class_name :
    (∀ (p : RigProject) (c : String),
        dictFind p.projectModulesDict c
          = match lastOption (p.modules.filter (fun m => decide (moduleClassKey m = c))) with
            | some m => some (moduleClassVal m)
            | none => none)
      ∧ (∀ (p : RigProject) (seed : Nat),
          ¬ (p.modules.map moduleClassKey).Nodup →
            ((p.read_data_from_dict (.dict p.get_project_as_dict) seed).1).modules.length
              < p.modules.length) := by
  constructor
  · intro p c
    have hfind := buildKeyedDict_find moduleClassKey moduleClassVal p.modules [] c
    rw [RigProject.projectModulesDict, hfind]
    cases hl : lastOption (p.modules.filter (fun m => decide (moduleClassKey m = c))) <;>
      simp [dictFind]
  · intro p seed hdup
    have hmodsne : p.modules ≠ [] := by
      intro h
      rw [h] at hdup
      simp at hdup
    have hmdne : p.projectModulesDict ≠ [] :=
      buildKeyedDict_ne_nil moduleClassKey moduleClassVal p.modules [] hmodsne
    have hmods := read_data_modules_of_dict p p.get_project_as_dict seed
      p.projectModulesDict (pyGet_project_modules p) hmdne
    rw [hmods, modulesOfDict_length]
    have h1 := buildKeyedDict_length_lt_of_dup moduleClassKey moduleClassVal p.modules [] hdup
    simpa [RigProject.projectModulesDict] using h1

/-- Witness for C3 part 2: two `ModuleGeneric` modules collapse to one
serialized entry, so the round trip returns fewer modules. -/
theorem c3_project_dict_keyed_by_class_name_witness :
    (¬ (c3DupProject.modules.map moduleClassKey).Nodup)
      ∧ ((c3DupProject.read_data_from_dict (.dict c3DupProject.get_project_as_dict) 0).1).modules.length
          < c3DupProject.modules.length :=
  ⟨by decide, c3_project_dict_keyed_by_class_name.2 c3DupProject 0 (by decide)⟩

/-- C8: a modules-dictionary entry whose key does not name a registered
module class (after re-adding the `Module` prefix) is loaded as a plain
`ModuleGeneric` that still reads `name`, `prefix`, `parent`, `active`,
`metadata` and `proxies` from the entry's dictionary; loading never
fails. -/
theorem c8_unknown_class_falls_back_to_generic
    (proj : RigProject) (dd : PyDict) (seed i : Nat) (k : String) (desc : PyVal)
    (hentry : dd.get? i = some (k, desc))
    (hunknown : moduleLookupName k ∉ rigModulesRegistry) :
    ∃ s : Nat,
      ((proj.read_modules_from_dict (.dict dd) seed).1).modules.get? i
          = some (moduleReadGeneric desc s)
        ∧ (moduleReadGeneric desc s).className = "ModuleGeneric"
        ∧ (∀ ddm : PyDict, desc = .dict ddm →
            (∀ nm : String, pyGet ddm "name" = .str nm → nm ≠ "" →
              (moduleReadGeneric desc s).name = some nm)
            ∧ (∀ pf : String, pyGet ddm "prefix" = .str pf → pf ≠ "" →
              (moduleReadGeneric desc s).pfx = some pf)
            ∧ (∀ pu : String, pyGet ddm "parent" = .str pu → is_uuid_valid pu = true →
              (moduleReadGeneric desc s).parent_uuid = some pu)
            ∧ (∀ b : Bool, pyGet ddm "active" = .boolean b →
              (moduleReadGeneric desc s).active = b)
            ∧ (∀ md : PyDict, pyGet ddm "metadata" = .dict md → md ≠ [] →
              (moduleReadGeneric desc s).metadata = some md)
            ∧ (∀ pd : PyDict, pyGet ddm "proxies" = .dict pd → pd ≠ [] →
              (moduleReadGeneric desc s).proxies.length = pd.length)) := by
  have hddne : dd ≠ [] := by
    intro h
    rw [h] at hentry
    simp at hentry
  have hie : dd.isEmpty = false := by
    cases dd with
    | nil => exact absurd rfl hddne
    | cons a b => rfl
  rcases modulesOfDict_get dd seed i (k, desc) hentry with ⟨s, hs⟩
  refine ⟨s, ?_, ?_, ?_⟩
  · simp only [RigProject.read_modules_from_dict, hie, Bool.false_eq_true, if_false]
    rw [foldl_readModulesStep]
    simp only [List.nil_append]
    rw [hs]
    simp [moduleOfEntry, hunknown, moduleReadGeneric]
  · simpa [moduleReadGeneric] using module_read_className mkModuleGeneric desc s
  · intro ddm hdesc
    subst hdesc
    refine ⟨?_, ?_, ?_, ?_, ?_, ?_⟩
    · intro nm h1 h2
      simpa [moduleReadGeneric] using module_read_name_of_str mkModuleGeneric ddm s nm h1 h2
    · intro pf h1 h2
      simpa [moduleReadGeneric] using module_read_pfx_of_str mkModuleGeneric ddm s pf h1 h2
    · intro pu h1 h2
      simpa [moduleReadGeneric] using module_read_parent_of_valid mkModuleGeneric ddm s pu h1 h2
    · intro b h1
      simpa [moduleReadGeneric] using module_read_active_of_bool mkModuleGeneric ddm s b h1
    · intro md h1 h2
      simpa [moduleReadGeneric] using module_read_metadata_of_dict mkModuleGeneric ddm s md h1 h2
    · intro pd h1 h2
      simpa [moduleReadGeneric] using module_read_proxies_length mkModuleGeneric ddm s pd h1 h2

@[simp] theorem Proxy.set_name_keeps_parent_uuid (p : Proxy) (v : PyVal) :
    (p.set_name v).parent_uuid = p.parent_uuid := by cases v <;> rfl

@[simp] theorem Proxy.set_locator_scale_parent_uuid (p : Proxy) (v : PyVal) :
    (p.set_locator_scale v).parent_uuid = p.parent_uuid := rfl

@[simp] theorem Proxy.set_attr_dict_parent_uuid (p : Proxy) (v : PyVal) :
    (p.set_attr_dict v).parent_uuid = p.parent_uuid := by cases v <;> rfl

@[simp] theorem Proxy.set_metadata_dict_keeps_parent_uuid (p : Proxy) (v : PyVal) :
    (p.set_metadata_dict v).parent_uuid = p.parent_uuid := by cases v <;> rfl

@[simp] theorem Proxy.set_uuid_parent_uuid (p : Proxy) (v : PyVal) :
    (p.set_uuid v).parent_uuid = p.parent_uuid := by
  cases v <;> dsimp only [Proxy.set_uuid] <;> first | rfl | (split_ifs <;> rfl)

theorem Proxy.set_parent_uuid_cases (p : Proxy) (v : PyVal) :
    (p.set_parent_uuid v).parent_uuid = p.parent_uuid
      ∨ ∃ s : String, v = .str s
          ∧ (is_uuid_valid s = true ∨ is_short_uuid_valid s = true)
          ∧ (p.set_parent_uuid v).parent_uuid = some s := by
  cases v <;> try (left; rfl)
  rename_i s
  dsimp only [Proxy.set_parent_uuid]
  split_ifs with h1 h2
  · left; rfl
  · right; exact ⟨s, rfl, Bool.or_eq_true_iff.mp h2, rfl⟩
  · left; rfl

theorem validParent_set_parent_uuid (p : Proxy) (v : PyVal)
    (h : validParentUuid p) : validParentUuid (p.set_parent_uuid v) := by
  rcases Proxy.set_parent_uuid_cases p v with hc | ⟨s, _, hv, hc⟩
  · intro u hu
    exact h u (hc ▸ hu)
  · intro u hu
    rw [hc] at hu
    cases hu
    exact hv

theorem read_data_parent_uuid_cases (p : Proxy) (d : PyVal) :
    (p.read_data_from_dict d).parent_uuid = p.parent_uuid
      ∨ ∃ s : String, (is_uuid_valid s = true ∨ is_short_uuid_valid s = true)
          ∧ (p.read_data_from_dict d).parent_uuid = some s := by
  cases d <;> try (left; rfl)
  rename_i dd
  simp only [Proxy.read_data_from_dict, apply_ite Proxy.parent_uuid,
    Proxy.set_name_keeps_parent_uuid, Proxy.set_locator_scale_parent_uuid,
    Proxy.set_attr_dict_parent_uuid, Proxy.set_metadata_dict_keeps_parent_uuid,
    Proxy.set_uuid_parent_uuid, ite_self]
  by_cases hpar : (pyGet dd "parent").truthy = true
  · simp only [hpar, if_true]
    rcases Proxy.set_parent_uuid_cases
        (if (pyGet dd "name").truthy then p.set_name (pyGet dd "name") else p)
        (pyGet dd "parent") with hc | ⟨s, _, hv, hc⟩
    · rw [hc]
      left
      simp [apply_ite Proxy.parent_uuid]
    · right
      exact ⟨s, hv, hc⟩
  · simp only [hpar, if_false]
    left
    simp [apply_ite Proxy.parent_uuid]

/-- C9: among the operations the claim names, `set_parent_uuid` either
leaves `parent_uuid` unchanged or stores a string accepted by one of the
UUID validators, `set_parent_uuid_from_proxy` goes through the same
validation, `clear_parent_uuid` stores `None`, and `read_data_from_dict`
assigns `parent_uuid` only through `set_parent_uuid` — so each preserves
the invariant that `parent_uuid` is `None` or a valid full/short UUID. -/
theorem c9_parent_uuid_invariant :
    ∀ p : Proxy, validParentUuid p →
      (∀ v : PyVal, validParentUuid (p.set_parent_uuid v)
          ∧ ((p.set_parent_uuid v).parent_uuid = p.parent_uuid
              ∨ ∃ s : String, v = .str s
                  ∧ (is_uuid_valid s = true ∨ is_short_uuid_valid s = true)
                  ∧ (p.set_parent_uuid v).parent_uuid = some s))
        ∧ (∀ o : PyObj, validParentUuid (p.set_parent_uuid_from_proxy o))
        ∧ (p.clear_parent_uuid.parent_uuid = none ∧ validParentUuid p.clear_parent_uuid)
        ∧ (∀ d : PyVal, validParentUuid (p.read_data_from_dict d)) := by
  intro p h
  refine ⟨?_, ?_, ?_, ?_⟩
  · intro v
    exact ⟨validParent_set_parent_uuid p v h, Proxy.set_parent_uuid_cases p v⟩
  · intro o
    cases o with
    | proxyObj q => exact validParent_set_parent_uuid p (.str q.uuid) h
    | val v => exact h
    | transformObj t => exact h
    | curveObj c => exact h
  · refine ⟨rfl, ?_⟩
    intro u hu
    exact absurd hu (by simp [Proxy.clear_parent_uuid])
  · intro d
    rcases read_data_parent_uuid_cases p d with hc | ⟨s, hv, hc⟩
    · intro u hu
      exact h u (hc ▸ hu)
    · intro u hu
      rw [hc] at hu
      cases hu
      exact hv

/-- Witness for C9: a fresh default proxy satisfies the invariant, and the
theorem applies to it, e.g. for `read_data_from_dict` with a dictionary
holding a generated parent UUID. -/
theorem c9_parent_uuid_invariant_witness :
    validParentUuid (mkProxyDefault 3)
      ∧ validParentUuid
          ((mkProxyDefault 3).read_data_from_dict
            (.dict [("parent", .str (generate_uuid 9))])) := by
  have hbase : validParentUuid (mkProxyDefault 3) := by
    intro u hu
    exact absurd hu (by simp [mkProxyDefault])
  exact ⟨hbase,
    ((c9_parent_uuid_invariant (mkProxyDefault 3) hbase).2.2.2)
      (.dict [("parent", .str (generate_uuid 9))])⟩

-- ---------------------------------------------------------------------------
-- C4 and C5: phase ordering and the refresh bracket
-- ---------------------------------------------------------------------------
theorem mem_buildProxyEvents (ms : List Module) (k : Nat) (e : BuildEvent)
    (h : e ∈ buildProxyEvents ms k) : ∃ i, e = .moduleBuildProxy i := by
  induction ms generalizing k with
  | nil => simp [buildProxyEvents] at h
  | cons m tl ih =>
    simp only [buildProxyEvents, List.mem_append] at h
    rcases h with h | h
    · by_cases hm : m.active
      · rw [if_pos hm] at h
        simp at h
        exact ⟨k, h⟩
      · rw [if_neg hm] at h
        simp at h
    · exact ih (k + 1) h

theorem mem_proxyWireEvents (ms : List Module) (k : Nat) (e : BuildEvent)
    (h : e ∈ proxyWireEvents ms k) :
    ∃ i, e = .parentProxies i ∨ e = .createVisualizationLines i
        ∨ e = .applyProxyAttrs i ∨ e = .moduleBuildProxyPost i := by
  induction ms generalizing k with
  | nil => simp [proxyWireEvents] at h
  | cons m tl ih =>
    simp only [proxyWireEvents, List.mem_append] at h
    rcases h with h | h
    · by_cases hm : m.active
      · rw [if_pos hm] at h
        simp at h
        rcases h with h | h | h | h
        · exact ⟨k, Or.inl h⟩
        · exact ⟨k, Or.inr (Or.inl h)⟩
        · exact ⟨k, Or.inr (Or.inr (Or.inl h))⟩
        · exact ⟨k, Or.inr (Or.inr (Or.inr h))⟩
      · rw [if_neg hm] at h
        simp at h
    · exact ih (k + 1) h

theorem mem_buildRigEvents (ms : List Module) (k : Nat) (e : BuildEvent)
    (h : e ∈ buildRigEvents ms k) : ∃ i, e = .moduleBuildRig i := by
  induction ms generalizing k with
  | nil => simp [buildRigEvents] at h
  | cons m tl ih =>
    simp only [buildRigEvents, List.mem_append] at h
    rcases h with h | h
    · by_cases hm : m.active
      · rw [if_pos hm] at h
        simp at h
        exact ⟨k, h⟩
      · rw [if_neg hm] at h
        simp at h
    · exact ih (k + 1) h

theorem mem_buildRigPostEvents (ms : List Module) (k : Nat) (e : BuildEvent)
    (h : e ∈ buildRigPostEvents ms k) : ∃ i, e = .moduleBuildRigPost i := by
  induction ms generalizing k with
  | nil => simp [buildRigPostEvents] at h
  | cons m tl ih =>
    simp only [buildRigPostEvents, List.mem_append] at h
    rcases h with h | h
    · by_cases hm : m.active
      · rw [if_pos hm] at h
        simp at h
        exact ⟨k, h⟩
      · rw [if_neg hm] at h
        simp at h
    · exact ih (k + 1) h

theorem buildProxyEvents_mem_of_active (ms : List Module) :
    ∀ (k i : Nat) (m : Module), ms.get? i = some m → m.active = true →
      BuildEvent.moduleBuildProxy (k + i) ∈ buildProxyEvents ms k := by
  induction ms with
  | nil => intro k i m h _; simp at h
  | cons hd tl ih =>
    intro k i m h hact
    cases i with
    | zero =>
      simp only [List.get?] at h
      cases h
      simp [buildProxyEvents, hact]
    | succ j =>
      simp only [List.get?] at h
      have := ih (k + 1) j m h hact
      have harith : k + 1 + j = k + (j + 1) := by omega
      rw [harith] at this
      simp [buildProxyEvents, List.mem_append, this]

theorem buildRigEvents_mem_of_active (ms : List Module) :
    ∀ (k i : Nat) (m : Module), ms.get? i = some m → m.active = true →
      BuildEvent.moduleBuildRig (k + i) ∈ buildRigEvents ms k := by
  induction ms with
  | nil => intro k i m h _; simp at h
  | cons hd tl ih =>
    intro k i m h hact
    cases i with
    | zero =>
      simp only [List.get?] at h
      cases h
      simp [buildRigEvents, hact]
    | succ j =>
      simp only [List.get?] at h
      have := ih (k + 1) j m h hact
      have harith : k + 1 + j = k + (j + 1) := by omega
      rw [harith] at this
      simp [buildRigEvents, List.mem_append, this]

/-- Positions in `u ++ v` when `u` holds no `Q`-events and `v` holds no
`P`-events: every `P`-event comes before every `Q`-event. -/
theorem append_pos_lt {α : Type} (u v : List α) (P Q : α → Prop)
    (hu : ∀ e ∈ u, ¬ Q e) (hv : ∀ e ∈ v, ¬ P e)
    (a b : Nat) (e1 e2 : α)
    (ha : (u ++ v).get? a = some e1) (hP : P e1)
    (hb : (u ++ v).get? b = some e2) (hQ : Q e2) : a < b := by
  have ha2 : a < u.length := by
    by_contra hge
    push_neg at hge
    rw [List.get?_append_right hge] at ha
    exact hv e1 (List.get?_mem ha) hP
  have hb2 : u.length ≤ b := by
    by_contra hlt
    push_neg at hlt
    rw [List.get?_append hlt] at hb
    exact hu e2 (List.get?_mem hb) hQ
  omega

theorem runEvents_subset (oracle : BuildEvent → Option String) :
    ∀ (l : List BuildEvent) (e : BuildEvent), e ∈ (runEvents oracle l).1 → e ∈ l := by
  intro l
  induction l with
  | nil => intro e h; simp [runEvents] at h
  | cons hd tl ih =>
    intro e h
    simp only [runEvents] at h
    cases horc : oracle hd with
    | some err =>
      rw [horc] at h
      simp at h
      simp [h]
    | none =>
      rw [horc] at h
      simp only [List.mem_cons] at h
      rcases h with h | h
      · simp [h]
      · exact List.mem_cons_of_mem hd (ih e h)

theorem build_proxy_body_no_refresh (p : RigProject) (e : BuildEvent)
    (h : e ∈ p.build_proxy_body) :
    e ≠ .refreshSuspendOn ∧ e ≠ .refreshSuspendOff := by
  unfold RigProject.build_proxy_body at h
  rcases List.mem_append.mp h with h1 | h1
  · rcases List.mem_append.mp h1 with h2 | h2
    · rcases List.mem_append.mp h2 with h3 | h3
      · simp at h3
        rcases h3 with rfl | rfl | rfl <;> exact ⟨by simp, by simp⟩
      · rcases mem_buildProxyEvents p.modules 0 e h3 with ⟨i, rfl⟩
        exact ⟨by simp, by simp⟩
    · simp at h2
      subst h2
      exact ⟨by simp, by simp⟩
  · rcases mem_proxyWireEvents p.modules 0 e h1 with ⟨i, rfl | rfl | rfl | rfl⟩ <;>
      exact ⟨by simp, by simp⟩

theorem build_rig_body_no_refresh (p : RigProject) (e : BuildEvent)
    (h : e ∈ p.build_rig_body) :
    e ≠ .refreshSuspendOn ∧ e ≠ .refreshSuspendOff := by
  simp only [RigProject.build_rig_body, List.mem_append, List.mem_cons,
    List.mem_singleton] at h
  rcases h with ((h | h | h) | h) | h
  · subst h; exact ⟨by simp, by simp⟩
  · subst h; exact ⟨by simp, by simp⟩
  · simp at h; subst h; exact ⟨by simp, by simp⟩
  · rcases mem_buildRigEvents p.modules 0 e h with ⟨i, rfl⟩
    exact ⟨by simp, by simp⟩
  · rcases mem_buildRigPostEvents p.modules 0 e h with ⟨i, rfl⟩
    exact ⟨by simp, by simp⟩

/-- C4: in `RigProject.build_rig`, every `module.build_rig()` call (joint
creation, phase 3) precedes every `module.build_rig_post()` call (joint
parenting, phase 4) in the trace, and every active module gets its phase-3
call; likewise in `build_proxy`, every `module.build_proxy()` call
precedes any `parent_proxies` or `build_proxy_post` call, and every active
module gets its `build_proxy` call — all regardless of module list
order. -/
theorem c4_phase_ordering (p : RigProject) :
    (∀ (a b i j : Nat),
        p.build_rig_body.get? a = some (.moduleBuildRig i) →
        p.build_rig_body.get? b = some (.moduleBuildRigPost j) → a < b)
      ∧ (∀ (i : Nat) (m : Module), p.modules.get? i = some m → m.active = true →
          BuildEvent.moduleBuildRig i ∈ p.build_rig_body)
      ∧ (∀ (a b i j : Nat),
          p.build_proxy_body.get? a = some (.moduleBuildProxy i) →
          (p.build_proxy_body.get? b = some (.parentProxies j)
            ∨ p.build_proxy_body.get? b = some (.moduleBuildProxyPost j)) → a < b)
      ∧ (∀ (i : Nat) (m : Module), p.modules.get? i = some m → m.active = true →
          BuildEvent.moduleBuildProxy i ∈ p.build_proxy_body) := by
  refine ⟨?_, ?_, ?_, ?_⟩
  · intro a b i j ha hb
    have hassoc : p.build_rig_body
        = ([.createControlRootCurve, .createSetupGroup, .parentSetupToRoot]
            ++ buildRigEvents p.modules 0) ++ buildRigPostEvents p.modules 0 := by
      simp [RigProject.build_rig_body]
    rw [hassoc] at ha hb
    refine append_pos_lt _ _ (fun e => ∃ i0, e = .moduleBuildRig i0)
      (fun e => ∃ j0, e = .moduleBuildRigPost j0) ?_ ?_ a b _ _ ha ⟨i, rfl⟩ hb ⟨j, rfl⟩
    · intro e he ⟨j0, hj0⟩
      subst hj0
      simp only [List.mem_append, List.mem_cons, List.mem_singleton] at he
      rcases he with (h | h | h) | h
      · cases h
      · cases h
      · simp at h
      · rcases mem_buildRigEvents p.modules 0 _ h with ⟨i0, hi0⟩
        cases hi0
    · intro e he ⟨i0, hi0⟩
      subst hi0
      rcases mem_buildRigPostEvents p.modules 0 _ he with ⟨j0, hj0⟩
      cases hj0
  · intro i m hm hact
    have := buildRigEvents_mem_of_active p.modules 0 i m hm hact
    simp only [Nat.zero_add] at this
    simp [RigProject.build_rig_body, List.mem_append, this]
  · intro a b i j ha hb
    have hassoc : p.build_proxy_body
        = ([.createProxyRootCurve, .createSetupGroup, .parentSetupToRoot]
            ++ buildProxyEvents p.modules 0 ++ [.proxyDataSetup])
          ++ proxyWireEvents p.modules 0 := by
      simp [RigProject.build_proxy_body]
    rw [hassoc] at ha
    have hu : ∀ e ∈ ([BuildEvent.createProxyRootCurve, BuildEvent.createSetupGroup,
        BuildEvent.parentSetupToRoot] ++ buildProxyEvents p.modules 0
          ++ [BuildEvent.proxyDataSetup]),
        ¬ (∃ j0 : Nat, e = .parentProxies j0 ∨ e = .moduleBuildProxyPost j0) := by
      intro e he hex
      rcases hex with ⟨j0, hj0⟩
      rcases List.mem_append.mp he with h1 | h1
      · rcases List.mem_append.mp h1 with h2 | h2
        · simp at h2
          rcases h2 with rfl | rfl | rfl <;> (rcases hj0 with h0 | h0 <;> cases h0)
        · rcases mem_buildProxyEvents p.modules 0 e h2 with ⟨i0, rfl⟩
          rcases hj0 with h0 | h0 <;> cases h0
      · simp at h1
        subst h1
        rcases hj0 with h0 | h0 <;> cases h0
    have hv : ∀ e ∈ proxyWireEvents p.modules 0,
        ¬ (∃ i0 : Nat, e = .moduleBuildProxy i0) := by
      intro e he hex
      rcases hex with ⟨i0, rfl⟩
      rcases mem_proxyWireEvents p.modules 0 _ he with ⟨j0, h | h | h | h⟩ <;> cases h
    rcases hb with hb | hb <;> rw [hassoc] at hb
    · exact append_pos_lt _ _ (fun e => ∃ i0, e = .moduleBuildProxy i0)
        (fun e => ∃ j0, e = .parentProxies j0 ∨ e = .moduleBuildProxyPost j0)
        hu hv a b _ _ ha ⟨i, rfl⟩ hb ⟨j, Or.inl rfl⟩
    · exact append_pos_lt _ _ (fun e => ∃ i0, e = .moduleBuildProxy i0)
        (fun e => ∃ j0, e = .parentProxies j0 ∨ e = .moduleBuildProxyPost j0)
        hu hv a b _ _ ha ⟨i, rfl⟩ hb ⟨j, Or.inr rfl⟩
  · intro i m hm hact
    have := buildProxyEvents_mem_of_active p.modules 0 i m hm hact
    simp only [Nat.zero_add] at this
    simp [RigProject.build_proxy_body, List.mem_append, this]

/-- C5: both `build_proxy` and `build_rig` execute as a refresh bracket —
the first backend call is `refresh(suspend=True)`, the last two are
`refresh(suspend=False)` and a forced redraw, on every exit path — and the
outcome (the exception raised in the body, if any) is exactly propagated,
never swallowed; the body itself never toggles refresh suspension. -/
theorem c5_refresh_bracket (p : RigProject) (oracle : BuildEvent → Option String) :
    (∃ mid : List BuildEvent,
        (p.build_proxy_exec oracle).1
            = .refreshSuspendOn :: (mid ++ [.refreshSuspendOff, .refreshAll])
          ∧ (p.build_proxy_exec oracle).2 = (runEvents oracle p.build_proxy_body).2
          ∧ ∀ e ∈ mid, e ≠ .refreshSuspendOn ∧ e ≠ .refreshSuspendOff)
      ∧ (∃ mid : List BuildEvent,
        (p.build_rig_exec oracle).1
            = .refreshSuspendOn :: (mid ++ [.refreshSuspendOff, .refreshAll])
          ∧ (p.build_rig_exec oracle).2 = (runEvents oracle p.build_rig_body).2
          ∧ ∀ e ∈ mid, e ≠ .refreshSuspendOn ∧ e ≠ .refreshSuspendOff) := by
  constructor
  · refine ⟨(runEvents oracle p.build_proxy_body).1, rfl, rfl, ?_⟩
    intro e he
    exact build_proxy_body_no_refresh p e (runEvents_subset oracle _ e he)
  · refine ⟨(runEvents oracle p.build_rig_body).1, rfl, rfl, ?_⟩
    intro e he
    exact build_rig_body_no_refresh p e (runEvents_subset oracle _ e he)

/-- Witness for C4: in the concrete two-module project, the phase-3 event
of module 1 (position 4) precedes the phase-4 event of module 0
(position 5), and both active modules receive their phase-3 calls. -/
theorem c4_phase_ordering_witness :
    c4Project.build_rig_body.get? 4 = some (.moduleBuildRig 1)
      ∧ c4Project.build_rig_body.get? 5 = some (.moduleBuildRigPost 0)
      ∧ (4 : Nat) < 5
      ∧ BuildEvent.moduleBuildRig 0 ∈ c4Project.build_rig_body
      ∧ BuildEvent.moduleBuildProxy 1 ∈ c4Project.build_proxy_body := by
  refine ⟨rfl, rfl, ?_, ?_, ?_⟩
  · exact (c4_phase_ordering c4Project).1 4 5 1 0 rfl rfl
  · exact (c4_phase_ordering c4Project).2.1 0 mkModuleGeneric rfl rfl
  · exact (c4_phase_ordering c4Project).2.2.2 1
      { mkModuleGeneric with className := "ModuleSpine" } rfl rfl

/-- Witness for C5 at the concrete project and a raising oracle: the
bracket shape holds and the error is propagated. -/
theorem c5_refresh_bracket_witness :
    (∃ mid : List BuildEvent,
        (c4Project.build_rig_exec c5Oracle).1
            = .refreshSuspendOn :: (mid ++ [.refreshSuspendOff, .refreshAll])
          ∧ (c4Project.build_rig_exec c5Oracle).2
              = (runEvents c5Oracle c4Project.build_rig_body).2
          ∧ ∀ e ∈ mid, e ≠ .refreshSuspendOn ∧ e ≠ .refreshSuspendOff)
      ∧ (c4Project.build_rig_exec c5Oracle).2 = some "backend exception" :=
  ⟨(c5_refresh_bracket c4Project c5Oracle).2, rfl⟩

-- ---------------------------------------------------------------------------
-- C6 and C7: ModuleSpine.set_spine_num
-- ---------------------------------------------------------------------------
theorem lastOption_isSome {α : Type} (l : List α) (h : l ≠ []) :
    ∃ a, lastOption l = some a := by
  cases l with
  | nil => exact absurd rfl h
  | cons a t => exact ⟨(lastOption t).getD a, lastOption_cons a t⟩

theorem lastOption_mem {α : Type} : ∀ (l : List α) (a : α), lastOption l = some a → a ∈ l := by
  intro l
  induction l with
  | nil => intro a h; cases h
  | cons b t ih =>
    intro a h
    rw [lastOption_cons] at h
    injection h with h
    cases htl : lastOption t with
    | none =>
      rw [htl] at h
      simp at h
      subst h
      exact List.mem_cons_self _ _
    | some x =>
      rw [htl] at h
      simp at h
      subst h
      exact List.mem_cons_of_mem b (ih x htl)

theorem lastOption_append {α : Type} (l1 l2 : List α) (h : l2 ≠ []) :
    lastOption (l1 ++ l2) = lastOption l2 := by
  induction l1 with
  | nil => rfl
  | cons a t ih =>
    obtain ⟨x, hx⟩ := lastOption_isSome l2 h
    rw [List.cons_append, lastOption_cons, ih, hx]
    rfl

theorem chainFrom_append (base : String) (l1 l2 : List Proxy)
    (h1 : chainFrom base l1)
    (h2 : chainFrom (match lastOption l1 with | some q => q.uuid | none => base) l2) :
    chainFrom base (l1 ++ l2) := by
  induction l1 generalizing base with
  | nil => simpa [lastOption] using h2
  | cons a tl ih =>
    rcases h1 with ⟨hpar, hchain⟩
    refine ⟨hpar, ih a.uuid hchain ?_⟩
    rw [lastOption_cons] at h2
    cases htl : lastOption tl with
    | some q =>
      rw [htl] at h2
      simpa using h2
    | none =>
      rw [htl] at h2
      simpa using h2

theorem isEmpty_false_of_ne_nil {α : Type} (l : List α) (h : l ≠ []) :
    l.isEmpty = false := by
  cases l with
  | nil => exact absurd rfl h
  | cons a t => rfl

theorem dictInsert_ne_nil (d : PyDict) (k : String) (v : PyVal) :
    dictInsert d k v ≠ [] := by
  cases d with
  | nil => simp [dictInsert]
  | cons a t =>
    dsimp only [dictInsert]
    split_ifs <;> simp

-- UUID preservation through the Proxy setters used by the spine module.
@[simp] theorem Proxy.set_name_uuid (p : Proxy) (v : PyVal) :
    (p.set_name v).uuid = p.uuid := by cases v <;> rfl

@[simp] theorem Proxy.set_locator_scale_uuid (p : Proxy) (v : PyVal) :
    (p.set_locator_scale v).uuid = p.uuid := rfl

@[simp] theorem Proxy.add_color_uuid (p : Proxy) (v : PyVal) :
    (p.add_color v).uuid = p.uuid := by
  cases v <;> dsimp only [Proxy.add_color] <;> first | rfl | (split_ifs <;> rfl)

@[simp] theorem Proxy.add_to_metadata_uuid (p : Proxy) (k : String) (v : PyVal) :
    (p.add_to_metadata k v).uuid = p.uuid := rfl

@[simp] theorem Proxy.set_meta_type_uuid (p : Proxy) (v : PyVal) :
    (p.set_meta_type v).uuid = p.uuid := rfl

@[simp] theorem Proxy.add_meta_parent_uuid (p : Proxy) (o : PyObj) :
    (p.add_meta_parent o).uuid = p.uuid := by
  cases o with
  | val v => cases v <;> dsimp only [Proxy.add_meta_parent] <;> first | rfl | (split_ifs <;> rfl)
  | transformObj t => rfl
  | curveObj c => rfl
  | proxyObj q => rfl

@[simp] theorem Proxy.set_parent_uuid_keeps_uuid (p : Proxy) (v : PyVal) :
    (p.set_parent_uuid v).uuid = p.uuid := by
  cases v <;> dsimp only [Proxy.set_parent_uuid] <;> first | rfl | (split_ifs <;> rfl)

@[simp] theorem Proxy.set_position_xyz_uuid (p : Proxy) (v : Vector3) :
    (p.set_position_xyz v).uuid = p.uuid := rfl

@[simp] theorem Proxy.set_offset_position_xyz_uuid (p : Proxy) (v : Vector3) :
    (p.set_offset_position_xyz v).uuid = p.uuid := rfl

@[simp] theorem Proxy.set_initial_position_xyz_uuid (p : Proxy) (v : Vector3) :
    (p.set_initial_position_xyz v).uuid = p.uuid := rfl

theorem mkProxyNamed_uuid (seed : Nat) (name : String) :
    (mkProxyNamed seed name).uuid = generate_uuid seed := by
  unfold mkProxyNamed
  split_ifs
  · rfl
  · simp [mkProxyDefault]

theorem mkSpineProxy_uuid (seed num : Nat) (pu : String) :
    (mkSpineProxy seed num pu).uuid = generate_uuid seed := by
  unfold mkSpineProxy
  simp [mkProxyNamed_uuid]

theorem Proxy.set_parent_uuid_of_valid (p : Proxy) (s : String)
    (h : is_uuid_valid s = true) :
    (p.set_parent_uuid (.str s)).parent_uuid = some s := by
  have hne := is_uuid_valid_ne_empty s h
  dsimp only [Proxy.set_parent_uuid]
  rw [if_neg hne, if_pos (show (is_uuid_valid s || is_short_uuid_valid s) = true by simp [h])]

theorem mkSpineProxy_parent (seed num : Nat) (pu : String)
    (h : is_uuid_valid pu = true) :
    (mkSpineProxy seed num pu).parent_uuid = some pu := by
  unfold mkSpineProxy
  exact Proxy.set_parent_uuid_of_valid _ pu h

theorem Proxy.add_meta_parent_get (p : Proxy) (s : String)
    (h : is_uuid_valid s = true) :
    (p.add_meta_parent (.val (.str s))).get_meta_parent_uuid = some (.str s) := by
  dsimp only [Proxy.add_meta_parent]
  rw [if_pos h]
  dsimp only [Proxy.get_meta_parent_uuid]
  rw [isEmpty_false_of_ne_nil _ (dictInsert_ne_nil p.metadataOrEmpty PROXY_META_PARENT (.str s))]
  simp [dictFind_insert_self]

theorem addSpines_spec : ∀ (count : Nat) (spines : List Proxy) (pu : String) (num seed : Nat),
    is_uuid_valid pu = true →
    ∃ fresh : List Proxy,
      (addSpines spines pu num count seed).1 = spines ++ fresh
        ∧ fresh.length = count
        ∧ chainFrom pu fresh
        ∧ (∀ q ∈ fresh, is_uuid_valid q.uuid = true) := by
  intro count
  induction count with
  | zero =>
    intro spines pu num seed _
    exact ⟨[], by simp [addSpines], rfl, trivial, by intro q hq; cases hq⟩
  | succ c ih =>
    intro spines pu num seed hv
    have hns_uuid : (mkSpineProxy seed num pu).uuid = generate_uuid seed :=
      mkSpineProxy_uuid seed num pu
    have hnsv : is_uuid_valid (mkSpineProxy seed num pu).uuid = true := by
      rw [hns_uuid]
      exact generate_uuid_valid seed
    obtain ⟨f2, he, hlen, hchain, hval⟩ := ih (spines ++ [mkSpineProxy seed num pu])
      (mkSpineProxy seed num pu).uuid (num + 1) (seed + 1) hnsv
    refine ⟨mkSpineProxy seed num pu :: f2, ?_, by simp [hlen],
      ⟨mkSpineProxy_parent seed num pu hv, hchain⟩, ?_⟩
    · show (addSpines (spines ++ [mkSpineProxy seed num pu])
          (mkSpineProxy seed num pu).uuid (num + 1) c (seed + 1)).1
        = spines ++ (mkSpineProxy seed num pu :: f2)
      rw [he]
      simp
    · intro q hq
      rcases List.mem_cons.mp hq with rfl | hq
      · exact hnsv
      · exact hval q hq

theorem set_spine_num_same (m : ModuleSpine) (k s : Nat) (h : m.spines.length = k) :
    m.set_spine_num k s = (m, s) := by
  simp only [ModuleSpine.set_spine_num]
  rw [if_pos h]

theorem set_spine_num_grow (m : ModuleSpine) (k s : Nat)
    (hlt : m.spines.length < k)
    (hhip : is_uuid_valid m.hip.uuid = true)
    (hsp : ∀ q ∈ m.spines, is_uuid_valid q.uuid = true) :
    ∃ fresh : List Proxy,
      ((m.set_spine_num k s).1).spines = m.spines ++ fresh
        ∧ fresh.length = k - m.spines.length
        ∧ chainFrom (match lastOption m.spines with
            | some q => q.uuid
            | none => m.hip.uuid) fresh
        ∧ (∀ q ∈ fresh, is_uuid_valid q.uuid = true)
        ∧ ((m.set_spine_num k s).1).chest.get_meta_parent_uuid
            = (lastOption ((m.set_spine_num k s).1).spines).map (fun q => PyVal.str q.uuid)
        ∧ ((m.set_spine_num k s).1).hip = m.hip
        ∧ ((m.set_spine_num k s).1).chest.uuid = m.chest.uuid
        ∧ ((m.set_spine_num k s).1).proxies
            = [m.hip] ++ ((m.set_spine_num k s).1).spines ++ [((m.set_spine_num k s).1).chest] := by
  have hne : m.spines.length ≠ k := by omega
  have hpb : is_uuid_valid (match lastOption m.spines with
      | some q => q.uuid
      | none => m.hip.uuid) = true := by
    cases hlo : lastOption m.spines with
    | some q => exact hsp q (lastOption_mem m.spines q hlo)
    | none => exact hhip
  obtain ⟨fresh, hf1, hf2, hf3, hf4⟩ := addSpines_spec (k - m.spines.length) m.spines
    (match lastOption m.spines with | some q => q.uuid | none => m.hip.uuid)
    m.spines.length s hpb
  have hfreshne : fresh ≠ [] := by
    intro h0
    rw [h0] at hf2
    simp at hf2
    omega
  obtain ⟨lastq, hlastq⟩ := lastOption_isSome fresh hfreshne
  have hlastval : is_uuid_valid lastq.uuid = true :=
    hf4 lastq (lastOption_mem fresh lastq hlastq)
  have hla : lastOption (m.spines ++ fresh) = some lastq := by
    rw [lastOption_append m.spines fresh hfreshne, hlastq]
  have hmain : m.set_spine_num k s
      = (ModuleSpine.refresh_proxies_list
          { m with spines := m.spines ++ fresh,
                   chest := m.chest.add_meta_parent (.val (.str lastq.uuid)) },
        (addSpines m.spines
          (match lastOption m.spines with | some q => q.uuid | none => m.hip.uuid)
          m.spines.length (k - m.spines.length) s).2) := by
    simp only [ModuleSpine.set_spine_num]
    rw [if_neg hne, if_pos hlt]
    dsimp only
    rw [hf1, hla]
  refine ⟨fresh, ?_, hf2, hf3, hf4, ?_, ?_, ?_, ?_⟩
  · rw [hmain]
    rfl
  · rw [hmain]
    show (Proxy.add_meta_parent m.chest (.val (.str lastq.uuid))).get_meta_parent_uuid
      = (lastOption (m.spines ++ fresh)).map (fun q => PyVal.str q.uuid)
    rw [Proxy.add_meta_parent_get m.chest lastq.uuid hlastval, hla]
    rfl
  · rw [hmain]
    rfl
  · rw [hmain]
    show (Proxy.add_meta_parent m.chest (.val (.str lastq.uuid))).uuid = m.chest.uuid
    simp
  · rw [hmain]
    rfl

theorem spineHipProxy_uuid (seed : Nat) :
    (spineHipProxy seed).uuid = generate_uuid seed := by
  unfold spineHipProxy
  simp [mkProxyNamed_uuid]

theorem spineChestProxy_uuid (seed : Nat) :
    (spineChestProxy seed).uuid = generate_uuid seed := by
  unfold spineChestProxy
  simp [mkProxyNamed_uuid]

/-- C7: on any spine module whose hip and spine UUIDs are well-formed
(true of every constructed module), lowering the count truncates the
in-between list, re-links the chest's meta parent to the new last
in-between spine (or to the hip when none remain, in particular for
`set_spine_num(0)`), rebuilds `proxies` as `[hip] + spines + [chest]`, and
leaves the hip proxy and the chest's UUID untouched. -/
theorem c7_spine_shrink (m : ModuleSpine) (k s : Nat)
    (hlt : k < m.spines.length)
    (hhip : is_uuid_valid m.hip.uuid = true)
    (hsp : ∀ q ∈ m.spines, is_uuid_valid q.uuid = true) :
    ((m.set_spine_num k s).1).spines = m.spines.take k
      ∧ ((m.set_spine_num k s).1).proxies
          = [m.hip] ++ m.spines.take k ++ [((m.set_spine_num k s).1).chest]
      ∧ ((m.set_spine_num k s).1).chest.get_meta_parent_uuid
          = some (.str (match lastOption (m.spines.take k) with
              | some q => q.uuid
              | none => m.hip.uuid))
      ∧ ((m.set_spine_num k s).1).hip = m.hip
      ∧ ((m.set_spine_num k s).1).chest.uuid = m.chest.uuid := by
  have hne : m.spines.length ≠ k := by omega
  have hnlt : ¬ m.spines.length < k := by omega
  cases hlo : lastOption (m.spines.take k) with
  | some q =>
    have hqv : is_uuid_valid q.uuid = true :=
      hsp q (List.take_subset k m.spines (lastOption_mem _ q hlo))
    have hmain : m.set_spine_num k s
        = (ModuleSpine.refresh_proxies_list
            { m with spines := m.spines.take k,
                     chest := m.chest.add_meta_parent (.val (.str q.uuid)) }, s) := by
      simp only [ModuleSpine.set_spine_num]
      rw [if_neg hne, if_neg hnlt]
      dsimp only
      rw [hlo]
    refine ⟨?_, ?_, ?_, ?_, ?_⟩
    · rw [hmain]
      rfl
    · rw [hmain]
      rfl
    · rw [hmain]
      show (Proxy.add_meta_parent m.chest (.val (.str q.uuid))).get_meta_parent_uuid
        = some (.str q.uuid)
      exact Proxy.add_meta_parent_get m.chest q.uuid hqv
    · rw [hmain]
      rfl
    · rw [hmain]
      show (Proxy.add_meta_parent m.chest (.val (.str q.uuid))).uuid = m.chest.uuid
      simp
  | none =>
    have hmain : m.set_spine_num k s
        = (ModuleSpine.refresh_proxies_list
            { m with spines := m.spines.take k,
                     chest := m.chest.add_meta_parent (.val (.str m.hip.uuid)) }, s) := by
      simp only [ModuleSpine.set_spine_num]
      rw [if_neg hne, if_neg hnlt]
      dsimp only
      rw [hlo]
    refine ⟨?_, ?_, ?_, ?_, ?_⟩
    · rw [hmain]
      rfl
    · rw [hmain]
      rfl
    · rw [hmain]
      show (Proxy.add_meta_parent m.chest (.val (.str m.hip.uuid))).get_meta_parent_uuid
        = some (.str m.hip.uuid)
      exact Proxy.add_meta_parent_get m.chest m.hip.uuid hhip
    · rw [hmain]
      rfl
    · rw [hmain]
      show (Proxy.add_meta_parent m.chest (.val (.str m.hip.uuid))).uuid = m.chest.uuid
      simp

/-- Witness for C7: a freshly constructed spine module (3 in-between
spines) truncated to zero — the proxies list becomes `[hip, chest]` and
the chest's meta parent points at the hip's UUID. -/
theorem c7_spine_shrink_witness :
    ((0 : Nat) < (mkModuleSpine 0).1.spines.length
        ∧ is_uuid_valid (mkModuleSpine 0).1.hip.uuid = true
        ∧ ∀ q ∈ (mkModuleSpine 0).1.spines, is_uuid_valid q.uuid = true)
      ∧ (((mkModuleSpine 0).1.set_spine_num 0 (mkModuleSpine 0).2).1).spines = []
      ∧ (((mkModuleSpine 0).1.set_spine_num 0 (mkModuleSpine 0).2).1).proxies
          = [(mkModuleSpine 0).1.hip]
            ++ [(((mkModuleSpine 0).1.set_spine_num 0 (mkModuleSpine 0).2).1).chest]
      ∧ (((mkModuleSpine 0).1.set_spine_num 0 (mkModuleSpine 0).2).1).chest.get_meta_parent_uuid
          = some (.str (mkModuleSpine 0).1.hip.uuid) := by
  have h1 : (0 : Nat) < (mkModuleSpine 0).1.spines.length := by decide
  have h2 : is_uuid_valid (mkModuleSpine 0).1.hip.uuid = true := by decide
  have h3 : ∀ q ∈ (mkModuleSpine 0).1.spines, is_uuid_valid q.uuid = true := by decide
  obtain ⟨ha, hb, hc, _, _⟩ :=
    c7_spine_shrink (mkModuleSpine 0).1 0 (mkModuleSpine 0).2 h1 h2 h3
  exact ⟨⟨h1, h2, h3⟩, ha, hb, hc⟩

/-- C6: after `set_spine_num(3)` (a no-op on a fresh module) followed by
`set_spine_num(6)`, the hip and chest keep their UUIDs, exactly 6
in-between spines exist, the first chains to the hip and each subsequent
one to its predecessor, and the chest's meta parent equals the 6th (last)
spine's UUID — for every UUID-generation seed. -/
theorem c6_spine_grow_chain (n : Nat) :
    (c6Stage2 n).1.hip.uuid = (c6Stage0 n).1.hip.uuid
      ∧ (c6Stage2 n).1.chest.uuid = (c6Stage0 n).1.chest.uuid
      ∧ (c6Stage2 n).1.spines.length = 6
      ∧ chainFrom ((c6Stage2 n).1.hip.uuid) ((c6Stage2 n).1.spines)
      ∧ (c6Stage2 n).1.chest.get_meta_parent_uuid
          = (lastOption (c6Stage2 n).1.spines).map (fun q => PyVal.str q.uuid) := by
  have hhipv : is_uuid_valid (spineHipProxy n).uuid = true := by
    rw [spineHipProxy_uuid]
    exact generate_uuid_valid n
  obtain ⟨f1, g1, g2, g3, g4, g5, g6, g7, g8⟩ := set_spine_num_grow
    ⟨spineHipProxy n, spineChestProxy (n + 1), [], []⟩ 3 (n + 2)
    (by simp) hhipv (by intro q hq; cases hq)
  have hg1 : (c6Stage0 n).1.spines = f1 := by
    have h0 : (c6Stage0 n).1.spines = [] ++ f1 := g1
    simpa using h0
  have hlen0 : (c6Stage0 n).1.spines.length = 3 := by
    rw [hg1]
    simpa using g2
  have hhip0 : (c6Stage0 n).1.hip = spineHipProxy n := g6
  have hchest0 : (c6Stage0 n).1.chest.uuid = (spineChestProxy (n + 1)).uuid := g7
  have hstage1 : c6Stage1 n = c6Stage0 n := by
    show (c6Stage0 n).1.set_spine_num 3 (c6Stage0 n).2 = c6Stage0 n
    rw [set_spine_num_same _ _ _ hlen0]
  have hsp0 : ∀ q ∈ (c6Stage0 n).1.spines, is_uuid_valid q.uuid = true := by
    intro q hq
    rw [hg1] at hq
    exact g4 q hq
  obtain ⟨f2, k1, k2, k3, k4, k5, k6, k7, k8⟩ := set_spine_num_grow
    (c6Stage0 n).1 6 (c6Stage0 n).2
    (by rw [hlen0]; omega) (by rw [hhip0]; exact hhipv) hsp0
  have hstage2 : c6Stage2 n = (c6Stage0 n).1.set_spine_num 6 (c6Stage0 n).2 := by
    show (c6Stage1 n).1.set_spine_num 6 (c6Stage1 n).2 = _
    rw [hstage1]
  have hlen2 : f2.length = 3 := by
    rw [hlen0] at k2
    simpa using k2
  refine ⟨?_, ?_, ?_, ?_, ?_⟩
  · rw [hstage2, k6]
  · rw [hstage2, k7]
  · rw [hstage2, k1, List.length_append, hlen0, hlen2]
  · rw [hstage2, k6, k1]
    refine chainFrom_append (c6Stage0 n).1.hip.uuid (c6Stage0 n).1.spines f2 ?_ k3
    rw [hg1, hhip0]
    exact g3
  · rw [hstage2]
    exact k5

/-- Witness for C8 at the concrete unknown-class entry `Mystery`. -/
theorem c8_unknown_class_falls_back_to_generic_witness :
    c8ModulesDict.get? 0 = some ("Mystery", .dict c8Desc)
      ∧ moduleLookupName "Mystery" ∉ rigModulesRegistry
      ∧ ∃ s : Nat,
          ((mkRigProject.read_modules_from_dict (.dict c8ModulesDict) 0).1).modules.get? 0
              = some (moduleReadGeneric (.dict c8Desc) s)
            ∧ (moduleReadGeneric (.dict c8Desc) s).name = some "mystery"
            ∧ (moduleReadGeneric (.dict c8Desc) s).active = false := by
  refine ⟨rfl, by decide, ?_⟩
  obtain ⟨s, h1, _, h3⟩ := c8_unknown_class_falls_back_to_generic mkRigProject
    c8ModulesDict 0 0 "Mystery" (.dict c8Desc) rfl (by decide)
  obtain ⟨hn, _, _, hb, _, _⟩ := h3 c8Desc rfl
  exact ⟨s, h1, hn "mystery" rfl (by decide), hb false rfl⟩

end GtRig

